import Mathlib

/-!
Verification of the `fhir_conditions_manager` package: a shallow embedding of
its ingestion pipeline, condition store, correction engine, retrieval/grouping
engine and monitoring ledger, together with theorems settling the behavioural
claims about it.

Python strings are modelled through their character lists (`String.data`);
Python `dict` and `set` are modelled as insertion-ordered association lists
and duplicate-free lists, which matches the observable behaviour the code
relies on (`dict` preserves insertion order, `set` membership).  Python
`datetime` values are modelled by `PyDateTime`, carrying the epoch-second
count (used by `total_seconds`) and the ISO rendering (used by `isoformat`
and string comparison).
-/

set_option autoImplicit false

namespace FhirConditions

/-! ## Models of the Python string primitives used by the code -/

/-- Model of `str.lower` on one character (the data is ASCII). -/
def pyCharLower (c : Char) : Char :=
  if 'A' ≤ c ∧ c ≤ 'Z' then Char.ofNat (c.toNat + 32) else c

/-- Model of Python `str.lower()`. -/
def pyLower (s : String) : String :=
  ⟨s.data.map pyCharLower⟩

/-- Model of Python `str.strip()`: drop whitespace from both ends. -/
def pyStrip (s : String) : String :=
  ⟨((s.data.dropWhile Char.isWhitespace).reverse.dropWhile Char.isWhitespace).reverse⟩

/-- `chStarts p l`: the character list `l` starts with `p`. -/
def chStarts : List Char → List Char → Bool
  | [], _ => true
  | _ :: _, [] => false
  | a :: p, b :: l => a == b && chStarts p l

/-- `chIn p l`: `p` occurs as a contiguous sublist of `l`. -/
def chIn (p : List Char) : List Char → Bool
  | [] => p.isEmpty
  | b :: l => chStarts p (b :: l) || chIn p l

/-- Model of Python `pat in s` (substring containment). -/
def pyIn (pat s : String) : Bool :=
  chIn pat.data s.data

/-- Lexicographic comparison of character lists by code point. -/
def chLt : List Char → List Char → Bool
  | [], [] => false
  | [], _ :: _ => true
  | _ :: _, [] => false
  | a :: as, b :: bs => if a = b then chLt as bs else decide (a < b)

/-- Model of Python `<` on strings (lexicographic by code point). -/
def pyStrLt (a b : String) : Bool :=
  chLt a.data b.data

/-- Model of Python `" ".join(parts)`. -/
def pyJoinSpace : List String → String
  | [] => ""
  | [s] => s
  | s :: rest => s ++ " " ++ pyJoinSpace rest

theorem chIn_cons {p : List Char} {c : Char} {l : List Char}
    (h : chIn p l = true) : chIn p (c :: l) = true := by
  simp [chIn, h]

theorem chStarts_append_left {a b l : List Char}
    (h : chStarts (a ++ b) l = true) : chIn b l = true := by
  induction a generalizing l with
  | nil =>
    cases l with
    | nil =>
      cases b with
      | nil => rfl
      | cons x xs => simp [chStarts] at h
    | cons c cs =>
      rw [List.nil_append] at h
      simp [chIn, h]
  | cons x xs ih =>
    cases l with
    | nil => simp [chStarts] at h
    | cons c cs =>
      simp only [List.cons_append, chStarts, Bool.and_eq_true] at h
      exact chIn_cons (ih h.2)

/-- If the concatenation `a ++ b` occurs in `l`, so does the suffix `b`. -/
theorem chIn_append_left {a b l : List Char}
    (h : chIn (a ++ b) l = true) : chIn b l = true := by
  induction l with
  | nil =>
    simp only [chIn, List.isEmpty_iff, List.append_eq_nil] at h ⊢
    simp [h.2]
  | cons c cs ih =>
    simp only [chIn, Bool.or_eq_true] at h
    rcases h with h | h
    · exact chStarts_append_left h
    · exact chIn_cons (ih h)

/-! ## Association lists: the model of Python `dict` -/

/-- Model of `d.get(k)` / `d[k]` lookup on a Python dict. -/
def dictFind {β : Type} (d : List (String × β)) (k : String) : Option β :=
  (d.find? (fun p => p.1 = k)).map (fun p => p.2)

/-- Model of `d[k] = v` on a Python dict: replace in place, else append. -/
def dictSet {β : Type} : List (String × β) → String → β → List (String × β)
  | [], k, v => [(k, v)]
  | (k', v') :: rest, k, v =>
    if k' = k then (k', v) :: rest else (k', v') :: dictSet rest k v

/-- Model of Python `set.add` on an insertion-ordered duplicate-free list. -/
def setAdd (s : List String) (x : String) : List String :=
  if x ∈ s then s else s ++ [x]

/-- Model of Python truthiness of `a & b` on sets: the intersection is
non-empty. -/
def hasCommon (a b : List String) : Bool :=
  a.any (fun c => b.contains c)

@[simp] theorem dictFind_nil {β : Type} (k : String) :
    dictFind ([] : List (String × β)) k = none := rfl

theorem dictFind_cons {β : Type} (k' : String) (v' : β) (rest : List (String × β)) (k : String) :
    dictFind ((k', v') :: rest) k = if k' = k then some v' else dictFind rest k := by
  by_cases h : k' = k <;> simp [dictFind, List.find?, h]

theorem dictFind_append_right {β : Type} {d : List (String × β)} {k : String}
    (h : dictFind d k = none) (e : List (String × β)) :
    dictFind (d ++ e) k = dictFind e k := by
  induction d with
  | nil => simp
  | cons p rest ih =>
    obtain ⟨k₀, v₀⟩ := p
    rw [dictFind_cons] at h
    by_cases hk : k₀ = k
    · simp [hk] at h
    · rw [List.cons_append, dictFind_cons]
      simp [hk] at h ⊢
      exact ih h

theorem dictFind_append_left {β : Type} {d : List (String × β)} {k : String} {v : β}
    (h : dictFind d k = some v) (e : List (String × β)) :
    dictFind (d ++ e) k = some v := by
  induction d with
  | nil => simp at h
  | cons p rest ih =>
    obtain ⟨k₀, v₀⟩ := p
    by_cases hk : k₀ = k
    · rw [dictFind_cons] at h
      rw [List.cons_append, dictFind_cons]
      simp [hk] at h ⊢
      exact h
    · rw [dictFind_cons] at h
      rw [List.cons_append, dictFind_cons]
      simp [hk] at h ⊢
      exact ih h

theorem dictFind_dictSet_self {β : Type} (d : List (String × β)) (k : String) (v : β) :
    dictFind (dictSet d k v) k = some v := by
  induction d with
  | nil => simp [dictSet, dictFind_cons]
  | cons p rest ih =>
    obtain ⟨k', v'⟩ := p
    by_cases hk : k' = k <;> simp [dictSet, hk, dictFind_cons, ih]

theorem dictFind_dictSet_ne {β : Type} (d : List (String × β)) (k k' : String) (v : β)
    (h : k ≠ k') : dictFind (dictSet d k v) k' = dictFind d k' := by
  induction d with
  | nil => simp [dictSet, dictFind_cons, h]
  | cons p rest ih =>
    obtain ⟨k₀, v₀⟩ := p
    by_cases hk : k₀ = k
    · subst hk
      simp [dictSet, dictFind_cons, h]
    · simp [dictSet, hk, dictFind_cons, ih]

theorem dictSet_keys {β : Type} (d : List (String × β)) (k : String) (v : β)
    (h : dictFind d k ≠ none) :
    (dictSet d k v).map Prod.fst = d.map Prod.fst := by
  induction d with
  | nil => simp [dictFind] at h
  | cons p rest ih =>
    obtain ⟨k₀, v₀⟩ := p
    by_cases hk : k₀ = k
    · simp [dictSet, hk]
    · rw [dictFind_cons] at h
      simp [hk] at h
      simp [dictSet, hk, ih h]

/-! ## Data model (`condition_model.py`) -/

/-- Model of a Python `datetime`: the epoch-second count drives
`total_seconds` on differences, the ISO rendering drives `isoformat()` and
string comparison of rendered values. -/
structure PyDateTime where
  epochSec : Int
  iso : String
deriving DecidableEq

structure FhirCoding where
  system : Option String := none
  code : Option String := none
  display : Option String := none
deriving DecidableEq

structure FhirCodeableConcept where
  text : Option String := none
  coding : List FhirCoding := []
deriving DecidableEq

structure FhirPeriod where
  start : Option String := none
  «end» : Option String := none
deriving DecidableEq

structure FhirReference where
  reference : Option String := none
deriving DecidableEq

structure FhirIdentifier where
  system : Option String := none
  value : Option String := none
deriving DecidableEq

structure FhirRelatedArtifact where
  type : Option String := none
  display : Option String := none
deriving DecidableEq

structure FhirExtension where
  url : Option String := none
  valueRelatedArtifact : Option FhirRelatedArtifact := none
deriving DecidableEq

structure FhirCondition where
  resourceType : String := "Condition"
  id : String
  identifier : List FhirIdentifier := []
  clinicalStatus : Option FhirCodeableConcept := none
  code : Option FhirCodeableConcept := none
  onsetPeriod : Option FhirPeriod := none
  category : List FhirCodeableConcept := []
  subject : Option FhirReference := none
  recorder : Option FhirReference := none
  extension : List FhirExtension := []
deriving DecidableEq

def ICD10_SYSTEM : String := "http://hl7.org/fhir/sid/icd-10-cm"
def SNOMED_SYSTEM : String := "http://snomed.info/sct"
def ICD9_SYSTEM : String := "http://terminology.hl7.org/CodeSystem/ICD-9CM-diagnosiscodes"
def IMO_SYSTEM : String := "http://terminology.hl7.org/CodeSystem-IMO.html"

structure ConditionRecord where
  resource_id : String
  fhir_condition : FhirCondition
  icd10_codes : List String := []
  snomed_codes : List String := []
  icd9_codes : List String := []
  imo_codes : List String := []
  all_codes : List String := []
  normalized_status : String := "unknown"
  searchable_text : String := ""
  display_name : String := ""
  onset_start : Option PyDateTime := none
  onset_end : Option PyDateTime := none
  quality_flags : List String := []
  derived_from_ids : List String := []
  is_removed : Bool := false
  removal_reason : Option String := none
  removal_timestamp : Option PyDateTime := none
  ingestion_batch : Option Nat := none
deriving DecidableEq

/-- Severity table `QUALITY_FLAG_METADATA`, reduced to the severity field
(the only part the specified logic reads). -/
def QUALITY_FLAG_SEVERITY : List (String × String) :=
  [("admin_code", "high"), ("vague_entry", "high"),
   ("missing_clinical_status", "medium"), ("inconsistent_status", "medium"),
   ("short_duration", "low"), ("missing_icd10", "low")]

/-! ## Ingestion pipeline (`ingestion.py`) -/

def ADMIN_CODE_INDICATORS : List String :=
  ["admin code", "*new member", "prompt authorization"]

def VAGUE_ENTRY_KEYWORDS : List String :=
  ["encounter for", "elective procedure", "initial encounter"]

def CLINICAL_STATUS_NORMALIZATION : List (String × String) :=
  [("active", "active"), ("active (qualifier value)", "active"), ("resolved", "resolved")]

/-- The four known-system code sets plus the global `_all` set, as extracted
by `_extract_codes_by_system` (ad hoc sets for unknown systems are built by
the code but never surfaced, so they are not carried here). -/
structure CodeSets where
  icd10 : List String := []
  snomed : List String := []
  icd9 : List String := []
  imo : List String := []
  all : List String := []
deriving DecidableEq

/-- One step of the extraction loop: route `code` to the set keyed by
`system` and add it to the global set. -/
def extractStep (acc : CodeSets) (system code : String) : CodeSets :=
  let acc :=
    if system = ICD10_SYSTEM then { acc with icd10 := setAdd acc.icd10 code }
    else if system = SNOMED_SYSTEM then { acc with snomed := setAdd acc.snomed code }
    else if system = ICD9_SYSTEM then { acc with icd9 := setAdd acc.icd9 code }
    else if system = IMO_SYSTEM then { acc with imo := setAdd acc.imo code }
    else acc
  { acc with all := setAdd acc.all code }

/-- Model of `_extract_codes_by_system`: for every coding with both a code
value and a system URI, add the code to the per-system set and to `_all`. -/
def extract_codes_by_system (condition : FhirCondition) : CodeSets :=
  match condition.code with
  | none => {}
  | some concept =>
    concept.coding.foldl
      (fun acc coding =>
        match coding.code, coding.system with
        | some code, some system => extractStep acc system code
        | _, _ => acc)
      {}

/-- Model of `_normalize_clinical_status`. -/
def normalize_clinical_status (condition : FhirCondition) : String :=
  match condition.clinicalStatus with
  | none => "unknown"
  | some cs =>
    let raw := pyLower (pyStrip (cs.text.getD ""))
    match dictFind CLINICAL_STATUS_NORMALIZATION raw with
    | some v => v
    | none => if raw = "" then "unknown" else raw

/-- Model of `_build_searchable_text`. -/
def build_searchable_text (condition : FhirCondition) : String :=
  let parts :=
    match condition.code with
    | none => []
    | some concept =>
      (match concept.text with | some t => [t] | none => []) ++
      concept.coding.foldr
        (fun coding acc =>
          (match coding.display with | some d => [d] | none => []) ++
          (match coding.code with | some c => [c] | none => []) ++ acc)
        []
  pyLower (pyJoinSpace parts)

/-- Model of `_pick_display_name`. -/
def pick_display_name (condition : FhirCondition) : String :=
  match condition.code with
  | none => "Unknown condition"
  | some concept =>
    match concept.text with
    | some t => t
    | none =>
      match concept.coding.find? (fun coding => coding.display.isSome) with
      | some coding => coding.display.getD ""
      | none => "Unknown condition"

/-- Model of the standard-library `datetime.fromisoformat` boundary: accepts
`YYYY-MM-DD` or `YYYY-MM-DDTHH:MM:SS` digit strings and returns the parsed
timestamp; anything else fails.  The claims under verification never depend
on which strings parse, only on parse failure being treated as absence. -/
def pyFromIsoformat (s : String) : Option PyDateTime :=
  let d := s.data
  let dig := fun (c : Char) => '0' ≤ c ∧ c ≤ '9'
  let num := fun (cs : List Char) => cs.foldl (fun n c => n * 10 + (c.toNat - 48)) 0
  match d with
  | [y1, y2, y3, y4, '-', m1, m2, '-', d1, d2] =>
    if dig y1 ∧ dig y2 ∧ dig y3 ∧ dig y4 ∧ dig m1 ∧ dig m2 ∧ dig d1 ∧ dig d2 then
      some { epochSec := ((86400 * (366 * (num [y1, y2, y3, y4]) + 31 * (num [m1, m2]) + num [d1, d2]) : Nat) : Int),
             iso := ⟨d ++ "T00:00:00".data⟩ }
    else none
  | [y1, y2, y3, y4, '-', m1, m2, '-', d1, d2, 'T', h1, h2, ':', mi1, mi2, ':', s1, s2] =>
    if dig y1 ∧ dig y2 ∧ dig y3 ∧ dig y4 ∧ dig m1 ∧ dig m2 ∧ dig d1 ∧ dig d2 ∧
       dig h1 ∧ dig h2 ∧ dig mi1 ∧ dig mi2 ∧ dig s1 ∧ dig s2 then
      some { epochSec := ((86400 * (366 * (num [y1, y2, y3, y4]) + 31 * (num [m1, m2]) + num [d1, d2]) +
               3600 * (num [h1, h2]) + 60 * (num [mi1, mi2]) + num [s1, s2] : Nat) : Int),
             iso := s }
    else none
  | _ => none

/-- Model of `_parse_onset_dates`: parse failures silently become `none`. -/
def parse_onset_dates (condition : FhirCondition) : Option PyDateTime × Option PyDateTime :=
  match condition.onsetPeriod with
  | none => (none, none)
  | some period =>
    ((period.start.bind pyFromIsoformat), (period.«end».bind pyFromIsoformat))

/-- Model of `_detect_quality_flags`: the flag list is built by the guarded
appends of the source, in source order (`if`/`elif` for the two
`inconsistent_status` arms). -/
def detect_quality_flags (condition : FhirCondition) (code_sets : CodeSets)
    (normalized_status : String) (onset_start onset_end : Option PyDateTime) :
    List String :=
  let searchable := build_searchable_text condition
  (if condition.clinicalStatus = none then ["missing_clinical_status"] else []) ++
  (if normalized_status = "active" ∧ onset_end.isSome then ["inconsistent_status"]
   else if normalized_status = "resolved" ∧ onset_end = none then ["inconsistent_status"]
   else []) ++
  (if ADMIN_CODE_INDICATORS.any (fun ind => pyIn ind searchable) then ["admin_code"] else []) ++
  (if VAGUE_ENTRY_KEYWORDS.any (fun kw => pyIn kw searchable) then ["vague_entry"] else []) ++
  (match onset_start, onset_end with
   | some s, some e =>
     if 0 < e.epochSec - s.epochSec ∧ e.epochSec - s.epochSec < 86400
     then ["short_duration"] else []
   | _, _ => []) ++
  (if code_sets.icd10.isEmpty then ["missing_icd10"] else [])

def DERIVED_FROM_EXTENSION_URL : String :=
  "http://hl7.org/fhir/StructureDefinition/artifact-relatedArtifact"

/-- Model of `_extract_derived_from_ids`. -/
def extract_derived_from_ids (condition : FhirCondition) : List String :=
  condition.extension.foldr
    (fun ext acc =>
      if ext.url = some DERIVED_FROM_EXTENSION_URL then
        match ext.valueRelatedArtifact with
        | none => acc
        | some artifact =>
          if artifact.type = some "derived-from" then
            match artifact.display with
            | none => acc
            | some reference =>
              if reference = "" then acc
              else if chStarts "Condition/".data reference.data then
                (⟨reference.data.drop 10⟩ : String) :: acc
              else acc
          else acc
      else acc)
    []

/-- A raw input resource at the ingestion boundary: the fields of
`FhirCondition` with every field optional, mirroring a JSON object that may
omit any key.  In this typed embedding the representable way an input can
fail pydantic validation (`FhirCondition.model_validate`) is by missing the
one mandatory field, `id`. -/
structure RawInput where
  resourceType : Option String := none
  id : Option String := none
  identifier : List FhirIdentifier := []
  clinicalStatus : Option FhirCodeableConcept := none
  code : Option FhirCodeableConcept := none
  onsetPeriod : Option FhirPeriod := none
  category : List FhirCodeableConcept := []
  subject : Option FhirReference := none
  recorder : Option FhirReference := none
  extension : List FhirExtension := []
deriving DecidableEq

/-- Model of `FhirCondition.model_validate(raw)`: fails (pydantic
`ValidationError`, the spec's `MalformedInputError`) exactly when the
mandatory identity is missing; optional fields fall back to their declared
defaults. -/
def model_validate (raw : RawInput) : Except String FhirCondition :=
  match raw.id with
  | none => .error "Field required: id"
  | some i =>
    .ok { resourceType := raw.resourceType.getD "Condition", id := i,
          identifier := raw.identifier, clinicalStatus := raw.clinicalStatus,
          code := raw.code, onsetPeriod := raw.onsetPeriod,
          category := raw.category, subject := raw.subject,
          recorder := raw.recorder, extension := raw.extension }

/-- Model of `build_condition_record`: validation failure is surfaced as
`Except.error` (the raised record-level error). -/
def build_condition_record (raw : RawInput) (batch_number : Nat) :
    Except String ConditionRecord :=
  match model_validate raw with
  | .error e => .error e
  | .ok condition =>
    let code_sets := extract_codes_by_system condition
    let onset := parse_onset_dates condition
    let normalized_status := normalize_clinical_status condition
    .ok { resource_id := condition.id,
          fhir_condition := condition,
          icd10_codes := code_sets.icd10,
          snomed_codes := code_sets.snomed,
          icd9_codes := code_sets.icd9,
          imo_codes := code_sets.imo,
          all_codes := code_sets.all,
          normalized_status := normalized_status,
          searchable_text := build_searchable_text condition,
          display_name := pick_display_name condition,
          onset_start := onset.1,
          onset_end := onset.2,
          quality_flags := detect_quality_flags condition code_sets
            normalized_status onset.1 onset.2,
          derived_from_ids := extract_derived_from_ids condition,
          ingestion_batch := some batch_number }

/-! ## Condition store (`condition_store.py`) -/

/-- The store's `_records` dict, keyed by resource id (insertion-ordered,
as a Python dict is).  The lock is irrelevant in this sequential embedding. -/
structure ConditionStore where
  records : List (String × ConditionRecord) := []
deriving DecidableEq

/-- The store invariant maintained by its operations: keys are unique (a
dict guarantees this) and each record sits under its own resource id. -/
def ConditionStore.WF (s : ConditionStore) : Prop :=
  (s.records.map Prod.fst).Nodup ∧ ∀ p ∈ s.records, p.1 = p.2.resource_id

def ConditionStore.add (s : ConditionStore) (record : ConditionRecord) :
    Bool × ConditionStore :=
  if (dictFind s.records record.resource_id).isSome then (false, s)
  else (true, ⟨s.records ++ [(record.resource_id, record)]⟩)

def ConditionStore.get_by_id (s : ConditionStore) (resource_id : String) :
    Option ConditionRecord :=
  dictFind s.records resource_id

def ConditionStore.get_all_active (s : ConditionStore) : List ConditionRecord :=
  (s.records.map Prod.snd).filter (fun r => r.is_removed = false)

def ConditionStore.get_all_removed (s : ConditionStore) : List ConditionRecord :=
  (s.records.map Prod.snd).filter (fun r => r.is_removed = true)

/-- The soft-delete mutation applied to a record by `soft_remove`. -/
def markRemoved (r : ConditionRecord) (reason : String) (now : PyDateTime) :
    ConditionRecord :=
  { r with is_removed := true, removal_reason := some reason,
           removal_timestamp := some now }

/-- Model of `ConditionStore.soft_remove`; `now` stands for the
`datetime.now(timezone.utc)` read, passed in explicitly. -/
def ConditionStore.soft_remove (s : ConditionStore) (resource_id : String)
    (reason : String) (now : PyDateTime) : Bool × ConditionStore :=
  match dictFind s.records resource_id with
  | none => (false, s)
  | some record =>
    if record.is_removed then (false, s)
    else (true, ⟨dictSet s.records resource_id (markRemoved record reason now)⟩)

def ConditionStore.total_count (s : ConditionStore) : Nat :=
  s.records.length

def ConditionStore.active_count (s : ConditionStore) : Nat :=
  (s.records.filter (fun p => p.2.is_removed = false)).length

def ConditionStore.removed_count (s : ConditionStore) : Nat :=
  (s.records.filter (fun p => p.2.is_removed = true)).length

/-! ## Monitoring ledger (`monitoring.py`) -/

structure BatchMetrics where
  batch_number : Nat
  received : Nat := 0
  added : Nat := 0
  skipped_duplicate : Nat := 0
  errored : Nat := 0
  flags : List (String × Nat) := []
deriving DecidableEq

structure CorrectionEntry where
  timestamp : String
  action : String
  target : String
  reason : String
  records_affected : Nat
deriving DecidableEq

/-- The dashboard state (latency samples are timing noise outside this
embedding and are not carried). -/
structure MonitoringDashboard where
  ingestion_batches : List BatchMetrics := []
  quality_flags_total : List (String × Nat) := []
  corrections : List CorrectionEntry := []
deriving DecidableEq

def MonitoringDashboard.record_batch (d : MonitoringDashboard)
    (metrics : BatchMetrics) : MonitoringDashboard :=
  { d with
    ingestion_batches := d.ingestion_batches ++ [metrics],
    quality_flags_total :=
      metrics.flags.foldl
        (fun acc kv => dictSet acc kv.1 ((dictFind acc kv.1).getD 0 + kv.2))
        d.quality_flags_total }

def MonitoringDashboard.record_correction (d : MonitoringDashboard)
    (action target reason : String) (records_affected : Nat)
    (now : PyDateTime) : MonitoringDashboard :=
  { d with corrections := d.corrections ++
      [{ timestamp := now.iso, action := action, target := target,
         reason := reason, records_affected := records_affected }] }

/-! ## Batch ingestion (`ingest_batch`) -/

/-- The loop body of `ingest_batch`, acting on the loop state
(metrics so far, `flag_counts`, store). -/
def ingestStep (batch_number : Nat)
    (acc : BatchMetrics × List (String × Nat) × ConditionStore)
    (raw : RawInput) : BatchMetrics × List (String × Nat) × ConditionStore :=
  let (metrics, flag_counts, store) := acc
  match build_condition_record raw batch_number with
  | .error _ => ({ metrics with errored := metrics.errored + 1 }, flag_counts, store)
  | .ok record =>
    let (inserted, store') := store.add record
    if inserted then
      ({ metrics with added := metrics.added + 1 },
       record.quality_flags.foldl
         (fun fc flag => dictSet fc flag ((dictFind fc flag).getD 0 + 1))
         flag_counts,
       store')
    else
      ({ metrics with skipped_duplicate := metrics.skipped_duplicate + 1 },
       flag_counts, store')

/-- Model of `ingest_batch`: iterate the inputs, then set `metrics.flags`
and commit the metrics to the dashboard once. -/
def ingest_batch (raw_conditions : List RawInput) (batch_number : Nat)
    (store : ConditionStore) (dashboard : MonitoringDashboard) :
    BatchMetrics × ConditionStore × MonitoringDashboard :=
  let init : BatchMetrics × List (String × Nat) × ConditionStore :=
    ({ batch_number := batch_number, received := raw_conditions.length }, [], store)
  let (m, flag_counts, store') := raw_conditions.foldl (ingestStep batch_number) init
  let metrics := { m with flags := flag_counts }
  (metrics, store', dashboard.record_batch metrics)

/-! ## Correction engine (`corrections.py`) -/

structure RemovalPredicate where
  name : String
  description : String
  text_patterns : List String := []
  icd10_codes : List String := []
  snomed_codes : List String := []
  quality_flags : List String := []
deriving DecidableEq

def tbPredicate : RemovalPredicate :=
  { name := "tuberculosis",
    description := "All TB-related conditions (latent TB, history of TB)",
    text_patterns := ["tuberculosis", "latent tb", "hx of latent tb"],
    icd10_codes := ["Z22.7", "Z86.15"],
    snomed_codes := ["11999007", "428934008"] }

def adminPredicate : RemovalPredicate :=
  { name := "admin_codes",
    description := "Non-clinical administrative entries",
    quality_flags := ["admin_code"] }

def PREDICATES : List (String × RemovalPredicate) :=
  [("tuberculosis", tbPredicate), ("admin_codes", adminPredicate)]

/-- Model of `_matches_predicate` (the early-`return` pattern loop equals
`any`; the two code-set guards test Python truthiness, i.e. non-emptiness). -/
def matches_predicate (record : ConditionRecord) (pred : RemovalPredicate) : Bool :=
  pred.text_patterns.any (fun pattern => pyIn pattern record.searchable_text) ||
  (!pred.icd10_codes.isEmpty && hasCommon record.icd10_codes pred.icd10_codes) ||
  (!pred.snomed_codes.isEmpty && hasCommon record.snomed_codes pred.snomed_codes) ||
  pred.quality_flags.any (fun flag => record.quality_flags.contains flag)

/-- The structured result every removal operation returns. -/
structure RemovalResult where
  success : Bool
  message : String
  records_removed : Nat
  removed_conditions : List String := []
  active_remaining : Nat
deriving DecidableEq

def removalLabel (record : ConditionRecord) : String :=
  record.display_name ++ " (" ++ (⟨record.resource_id.data.take 8⟩ : String) ++ ")"

def noMatchResult (target : String) (store : ConditionStore) : RemovalResult :=
  { success := false,
    message := "No active conditions found matching \"" ++ target ++ "\".",
    records_removed := 0,
    active_remaining := store.active_count }

/-- Model of `CorrectionEngine._apply_removals`; `now` stands for the wall
clock reads (the claims never depend on the sampled times). -/
def apply_removals (store : ConditionStore) (dashboard : MonitoringDashboard)
    (matched : List ConditionRecord) (action target reason : String)
    (now : PyDateTime) : RemovalResult × ConditionStore × MonitoringDashboard :=
  if matched.isEmpty then (noMatchResult target store, store, dashboard)
  else
    let res :=
      matched.foldl
        (fun acc record =>
          ((acc.1.soft_remove record.resource_id reason now).2,
           if (acc.1.soft_remove record.resource_id reason now).1
           then acc.2 ++ [removalLabel record] else acc.2))
        (store, ([] : List String))
    let store' := res.1
    let removed := res.2
    let dashboard' := dashboard.record_correction action target reason removed.length now
    ({ success := true,
       message := "Removed " ++ toString removed.length ++ " condition(s). " ++
         toString store'.active_count ++ " active remaining.",
       records_removed := removed.length,
       removed_conditions := removed,
       active_remaining := store'.active_count },
     store', dashboard')

/-- Model of `CorrectionEngine.remove_by_predicate`. -/
def remove_by_predicate (predicate_name reason : String) (now : PyDateTime)
    (store : ConditionStore) (dashboard : MonitoringDashboard) :
    RemovalResult × ConditionStore × MonitoringDashboard :=
  match dictFind PREDICATES predicate_name with
  | none =>
    ({ success := false,
       message := "Unknown predicate \"" ++ predicate_name ++
         "\". Available: admin_codes, tuberculosis",
       records_removed := 0,
       active_remaining := store.active_count },
     store, dashboard)
  | some pred =>
    let matched := store.get_all_active.filter (fun r => matches_predicate r pred)
    apply_removals store dashboard matched "remove_by_predicate" predicate_name reason now

/-! ## Retrieval and grouping engine (`retrieval.py`) -/

structure ConditionGroup where
  canonical_code : String
  code_system_label : String
  display_name : String
  all_codes : List (String × List String)
  statuses : List String := []
  encounter_count : Nat := 0
  earliest_onset : Option String := none
  latest_onset : Option String := none
  quality_flags : List String := []
  has_overlapping_dates : Bool := false
  consolidated_record_count : Nat := 0
  derived_from_source_count : Nat := 0
deriving DecidableEq

/-- Model of `_canonical_code` (a Lean list models the Python set, so the
head is the set's first iterate). -/
def canonical_code (record : ConditionRecord) : String × String :=
  match record.icd10_codes with
  | c :: _ => (c, "ICD-10")
  | [] =>
    match record.snomed_codes with
    | c :: _ => (c, "SNOMED")
    | [] =>
      match record.icd9_codes with
      | c :: _ => (c, "ICD-9")
      | [] => (pyLower record.display_name, "text")

/-- Model of `_code_labels`. -/
def code_labels (record : ConditionRecord) : List (String × List String) :=
  (if !record.icd10_codes.isEmpty then [("ICD-10", record.icd10_codes)] else []) ++
  (if !record.snomed_codes.isEmpty then [("SNOMED", record.snomed_codes)] else []) ++
  (if !record.icd9_codes.isEmpty then [("ICD-9", record.icd9_codes)] else []) ++
  (if !record.imo_codes.isEmpty then [("IMO", record.imo_codes)] else [])

/-- Model of `_matches_text`. -/
def matches_text (record : ConditionRecord) (query : String) : Bool :=
  pyIn (pyLower query) record.searchable_text

/-- Model of `_matches_code` (note `if code_system:` is a Python truthiness
test, so the empty string also falls through to the global code set). -/
def matches_code (record : ConditionRecord) (code : String)
    (code_system : Option String) : Bool :=
  match code_system with
  | some cs =>
    if cs = "" then record.all_codes.contains code
    else
      let system_map : List (String × List String) :=
        [("icd10", record.icd10_codes), ("icd-10", record.icd10_codes),
         ("snomed", record.snomed_codes), ("icd9", record.icd9_codes),
         ("icd-9", record.icd9_codes), ("imo", record.imo_codes)]
      match dictFind system_map (pyLower cs) with
      | some target => target.contains code
      | none => record.all_codes.contains code
  | none => record.all_codes.contains code

/-- Model of `_matches_status`. -/
def matches_status (record : ConditionRecord) (status : String) : Bool :=
  record.normalized_status = pyLower status

/-- Insert `x` into a sorted list, before the first element `y` with
`le x y`: the insertion step of a stable insertion sort. -/
def pySortInsert {α : Type} (le : α → α → Bool) (x : α) : List α → List α
  | [] => [x]
  | y :: ys => if le x y then x :: y :: ys else y :: pySortInsert le x ys

/-- Model of Python's stable `sorted`: for a total preorder `le` every
stable sort returns the same list, so a stable insertion sort is a faithful
executable model of Timsort. -/
def pySorted {α : Type} (le : α → α → Bool) : List α → List α
  | [] => []
  | x :: xs => pySortInsert le x (pySorted le xs)

/-- The scan loop of `_detect_overlapping_onset_periods`: walk adjacent
pairs of the sorted list, reporting a start strictly before the preceding
end. -/
def overlapScan : List (String × String) → Bool
  | p :: q :: rest => if pyStrLt q.1 p.2 then true else overlapScan (q :: rest)
  | _ => false

/-- Model of `_detect_overlapping_onset_periods`: a stable sort by period
start (Python `sorted(..., key=lambda p: p[0])`), then the adjacent scan. -/
def detect_overlapping_onset_periods (onset_periods : List (String × String)) : Bool :=
  overlapScan (pySorted (fun a b => ! pyStrLt b.1 a.1) onset_periods)

/-- The fresh group made on first sight of a canonical code. -/
def groupInit (code label : String) (record : ConditionRecord) : ConditionGroup :=
  { canonical_code := code, code_system_label := label,
    display_name := record.display_name, all_codes := code_labels record }

/-- The in-place mutation of an existing group by one member record in
`group_by_canonical_code`'s loop body: encounter count, statuses, quality
flags, provenance counters, per-system code union and earliest/latest
onset date. -/
def updateGroup (g : ConditionGroup) (record : ConditionRecord) : ConditionGroup :=
  { g with
    encounter_count := g.encounter_count + 1,
    statuses := setAdd g.statuses record.normalized_status,
    quality_flags := record.quality_flags.foldl setAdd g.quality_flags,
    consolidated_record_count :=
      if record.derived_from_ids.isEmpty then g.consolidated_record_count
      else g.consolidated_record_count + 1,
    derived_from_source_count :=
      if record.derived_from_ids.isEmpty then g.derived_from_source_count
      else g.derived_from_source_count + record.derived_from_ids.length,
    all_codes :=
      (code_labels record).foldl
        (fun ac kv => dictSet ac kv.1 (kv.2.foldl setAdd ((dictFind ac kv.1).getD [])))
        g.all_codes,
    earliest_onset :=
      match record.onset_start with
      | none => g.earliest_onset
      | some start =>
        let onset_str : String := ⟨start.iso.data.take 10⟩
        match g.earliest_onset with
        | none => some onset_str
        | some e => if pyStrLt onset_str e then some onset_str else some e,
    latest_onset :=
      match record.onset_start with
      | none => g.latest_onset
      | some start =>
        let onset_str : String := ⟨start.iso.data.take 10⟩
        match g.latest_onset with
        | none => some onset_str
        | some l => if pyStrLt l onset_str then some onset_str else some l }

/-- The loop body of `group_by_canonical_code`, acting on the pair of dicts
(`groups`, `onset_periods_by_group`): create the group and its (empty)
period list on first sight of a canonical code, mutate the group, and
append the record's complete onset period if it has one. -/
def groupStep
    (st : List (String × ConditionGroup) × List (String × List (String × String)))
    (record : ConditionRecord) :
    List (String × ConditionGroup) × List (String × List (String × String)) :=
  let code := (canonical_code record).1
  let label := (canonical_code record).2
  let st₁ :=
    if (dictFind st.1 code).isSome then st
    else (st.1 ++ [(code, groupInit code label record)], st.2 ++ [(code, [])])
  match dictFind st₁.1 code with
  | none => st₁
  | some g =>
    (dictSet st₁.1 code (updateGroup g record),
     match record.onset_start, record.onset_end with
     | some s, some e =>
       dictSet st₁.2 code (((dictFind st₁.2 code).getD []) ++ [(s.iso, e.iso)])
     | _, _ => st₁.2)

/-- The overlap pass of `group_by_canonical_code`: a group whose period
list has at least two entries that the detector flags gets
`has_overlapping_dates` set. -/
def applyOverlapFlag (periodsByGroup : List (String × List (String × String)))
    (kv : String × ConditionGroup) : String × ConditionGroup :=
  let periods := (dictFind periodsByGroup kv.1).getD []
  if 2 ≤ periods.length ∧ detect_overlapping_onset_periods periods = true
  then (kv.1, { kv.2 with has_overlapping_dates := true }) else kv

/-- Model of `group_by_canonical_code`: build the two dicts, apply the
overlap pass, and return the groups sorted by descending encounter count
(Python `sorted(..., reverse=True)` is a stable descending sort). -/
def group_by_canonical_code (records : List ConditionRecord) : List ConditionGroup :=
  let st := records.foldl groupStep ([], [])
  pySorted (fun a b => b.encounter_count ≤ a.encounter_count)
    ((st.1.map (applyOverlapFlag st.2)).map Prod.snd)

/-- The member records of a group and their complete onset periods: the
claim-side description of `onset_periods_by_group` for a canonical code. -/
def memberPeriods (records : List ConditionRecord) (code : String) :
    List (String × String) :=
  (records.filter (fun r => (canonical_code r).1 = code)).filterMap
    (fun r =>
      match r.onset_start, r.onset_end with
      | some s, some e => some (s.iso, e.iso)
      | _, _ => none)

/-- The invariant of `group_by_canonical_code`'s accumulation fold over
`records`: the two dicts share a duplicate-free key list, every stored
group carries its key as canonical code with the overlap flag still unset,
every stored period list is exactly the complete onset periods of the
processed member records, and every processed record has its group. -/
def GroupInv (records : List ConditionRecord)
    (st : List (String × ConditionGroup) × List (String × List (String × String))) :
    Prop :=
  (st.1.map Prod.fst).Nodup ∧
  st.1.map Prod.fst = st.2.map Prod.fst ∧
  (∀ c g, dictFind st.1 c = some g →
    g.canonical_code = c ∧ g.has_overlapping_dates = false) ∧
  (∀ c ps, dictFind st.2 c = some ps → ps = memberPeriods records c) ∧
  (∀ r ∈ records, (dictFind st.1 (canonical_code r).1).isSome = true)

/-- The canonical codes seen so far, in order of first appearance: the key
list both dicts of `group_by_canonical_code` carry. -/
def canonKeys (records : List ConditionRecord) : List String :=
  records.foldl (fun ks r => setAdd ks (canonical_code r).1) []

/-- The amended specification of status normalization, in the spec's own
words: lower-case, trim, map through the synonym table; absent status or
empty text give `unknown`; unrecognized non-empty text passes through. -/
def specNormalizedStatus (statusText : Option String) : String :=
  match statusText with
  | none => "unknown"
  | some t =>
    let raw := pyLower (pyStrip t)
    if raw = "active" ∨ raw = "active (qualifier value)" then "active"
    else if raw = "resolved" then "resolved"
    else if raw = "" then "unknown"
    else raw

/-! ## Concrete sample data used by witnesses and counterexamples -/

/-- A raw input with clinical status `Active (Qualifier value)`. -/
def rawActive : RawInput :=
  { id := some "cond-active",
    clinicalStatus := some { text := some "Active (Qualifier value)" },
    code := some { text := some "Latent TB",
                   coding := [{ system := some ICD10_SYSTEM, code := some "Z22.7",
                                display := some "Latent tuberculosis" }] } }

/-- A raw input whose status text is not in the synonym table. -/
def rawRemission : RawInput :=
  { id := some "cond-remission",
    clinicalStatus := some { text := some " Remission " } }

/-- A well-formed raw input without a clinical status. -/
def rawPlain : RawInput :=
  { id := some "cond-plain", code := some { text := some "Back pain" } }

/-- A raw input missing the mandatory identity. -/
def rawNoId : RawInput :=
  { code := some { text := some "Broken" } }

/-- An active record whose searchable text says `tuberculosis` but not
`latent tb`, with no ICD-10 or SNOMED codes. -/
def tbTextRecord : ConditionRecord :=
  { resource_id := "tb1", fhir_condition := { id := "tb1" },
    searchable_text := "pulmonary tuberculosis",
    display_name := "Pulmonary tuberculosis" }

def tbTextStore : ConditionStore := ⟨[("tb1", tbTextRecord)]⟩

/-- A record with a latent-TB ICD-10 code. -/
def tbCodeRecord : ConditionRecord :=
  { resource_id := "tb2", fhir_condition := { id := "tb2" },
    icd10_codes := ["Z22.7"], all_codes := ["Z22.7"],
    searchable_text := "latent tb", display_name := "Latent TB" }

/-- Asthma records (ICD-10 `J45.909`) with overlapping onset periods. -/
def asthmaRecord1 : ConditionRecord :=
  { resource_id := "a1", fhir_condition := { id := "a1" },
    icd10_codes := ["J45.909"], all_codes := ["J45.909"],
    display_name := "Asthma",
    onset_start := pyFromIsoformat "2020-01-01",
    onset_end := pyFromIsoformat "2020-06-01" }

def asthmaRecord2 : ConditionRecord :=
  { resource_id := "a2", fhir_condition := { id := "a2" },
    icd10_codes := ["J45.909"], all_codes := ["J45.909"],
    display_name := "Asthma",
    onset_start := pyFromIsoformat "2020-03-01",
    onset_end := pyFromIsoformat "2020-09-01" }

/-- A record whose only codes are IMO/local codes. -/
def imoOnlyRecord : ConditionRecord :=
  { resource_id := "imo1", fhir_condition := { id := "imo1" },
    imo_codes := ["IMO0002"], all_codes := ["IMO0002"],
    display_name := "Some Condition" }

/-- Two distinct records sharing one resource id. -/
def dupRecordA : ConditionRecord :=
  { resource_id := "dup", fhir_condition := { id := "dup" },
    display_name := "First write" }

def dupRecordB : ConditionRecord :=
  { resource_id := "dup", fhir_condition := { id := "dup" },
    display_name := "Second write" }

/-- A record already soft-removed, and a store holding it plus an active
record. -/
def removedRecord : ConditionRecord :=
  { resource_id := "gone", fhir_condition := { id := "gone" },
    is_removed := true, removal_reason := some "old",
    removal_timestamp := some ⟨0, "1970-01-01T00:00:00"⟩ }

def mixedStore : ConditionStore :=
  ⟨[("gone", removedRecord), ("dup", dupRecordA)]⟩

/-! ## Theorems -/

/-- C8: `add(record)` inserts the record iff its `resource_id` is not
already present and returns whether insertion occurred; adding two records
with the same resource id leaves the first stored record unmodified (first
write wins), makes the second call return false, and raises the active
count by exactly 1 over the two calls. -/
theorem add_insert_once_first_write_wins (s : ConditionStore) (r : ConditionRecord) :
    ((s.add r).1 = true ↔ dictFind s.records r.resource_id = none) ∧
    ((s.add r).1 = true → (s.add r).2.records = s.records ++ [(r.resource_id, r)]) ∧
    ((s.add r).1 = false → (s.add r).2 = s) ∧
    (∀ r₂ : ConditionRecord, r₂.resource_id = r.resource_id →
      dictFind s.records r.resource_id = none → r.is_removed = false →
      (s.add r).1 = true ∧
      ((s.add r).2.add r₂).1 = false ∧
      ((s.add r).2.add r₂).2 = (s.add r).2 ∧
      ((s.add r).2.add r₂).2.get_by_id r.resource_id = some r ∧
      ((s.add r).2.add r₂).2.active_count = s.active_count + 1) := by
  refine ⟨?_, ?_, ?_, ?_⟩
  · cases hf : dictFind s.records r.resource_id with
    | none => simp [ConditionStore.add, hf]
    | some v => simp [ConditionStore.add, hf]
  · intro h
    cases hf : dictFind s.records r.resource_id with
    | none => simp [ConditionStore.add, hf]
    | some v => simp [ConditionStore.add, hf] at h
  · intro h
    cases hf : dictFind s.records r.resource_id with
    | none => simp [ConditionStore.add, hf] at h
    | some v => simp [ConditionStore.add, hf]
  · intro r₂ hid hnone hact
    have hadd : s.add r = (true, ⟨s.records ++ [(r.resource_id, r)]⟩) := by
      simp [ConditionStore.add, hnone]
    have hfind₂ : dictFind (s.records ++ [(r.resource_id, r)]) r₂.resource_id = some r := by
      rw [hid, dictFind_append_right hnone, dictFind_cons]
      simp
    rw [hadd]
    refine ⟨rfl, ?_, ?_, ?_, ?_⟩
    · simp [ConditionStore.add, hfind₂]
    · simp [ConditionStore.add, hfind₂]
    · have hfind₁ : dictFind (s.records ++ [(r.resource_id, r)]) r.resource_id = some r := by
        rw [dictFind_append_right hnone, dictFind_cons]
        simp
      simp [ConditionStore.add, hfind₂, ConditionStore.get_by_id, hfind₁]
    · simp [ConditionStore.add, hfind₂, ConditionStore.active_count,
            List.filter_append, hact]

/-- C8 witness: inserting `dupRecordA` then `dupRecordB` (same id) into the
empty store: first insert succeeds, second fails, the first record stays,
and the active count rises by exactly 1. -/
theorem add_insert_once_first_write_wins_witness :
    dictFind (⟨[]⟩ : ConditionStore).records dupRecordA.resource_id = none ∧
    ((⟨[]⟩ : ConditionStore).add dupRecordA).1 = true ∧
    (((⟨[]⟩ : ConditionStore).add dupRecordA).2.add dupRecordB).1 = false ∧
    (((⟨[]⟩ : ConditionStore).add dupRecordA).2.add dupRecordB).2.get_by_id
      dupRecordA.resource_id = some dupRecordA ∧
    (((⟨[]⟩ : ConditionStore).add dupRecordA).2.add dupRecordB).2.active_count =
      (⟨[]⟩ : ConditionStore).active_count + 1 := by
  have h := (add_insert_once_first_write_wins ⟨[]⟩ dupRecordA).2.2.2 dupRecordB
    (by decide) (by decide) (by decide)
  exact ⟨by decide, h.1, h.2.1, h.2.2.2.1, h.2.2.2.2⟩

/-- C9: `soft_remove(id, reason)` succeeds and marks the record removed
(setting `is_removed`, `removal_reason` and the removal timestamp) exactly
when `id` names a stored record that is not yet removed; otherwise it
returns false and leaves the store unchanged, so removing an
already-removed id never changes `removed_count`. -/
theorem soft_remove_active_only (s : ConditionStore) (resource_id reason : String)
    (now : PyDateTime) :
    ((s.soft_remove resource_id reason now).1 = true ↔
      ∃ r, dictFind s.records resource_id = some r ∧ r.is_removed = false) ∧
    (∀ r, dictFind s.records resource_id = some r → r.is_removed = false →
      (s.soft_remove resource_id reason now).1 = true ∧
      (s.soft_remove resource_id reason now).2.records =
        dictSet s.records resource_id (markRemoved r reason now)) ∧
    ((s.soft_remove resource_id reason now).1 = false →
      (s.soft_remove resource_id reason now).2 = s) ∧
    (∀ r, dictFind s.records resource_id = some r → r.is_removed = true →
      (s.soft_remove resource_id reason now).1 = false ∧
      (s.soft_remove resource_id reason now).2.removed_count = s.removed_count) := by
  refine ⟨?_, ?_, ?_, ?_⟩
  · cases h : dictFind s.records resource_id with
    | none => simp [ConditionStore.soft_remove, h]
    | some r =>
      by_cases hr : r.is_removed <;> simp [ConditionStore.soft_remove, h, hr]
  · intro r h hr
    simp [ConditionStore.soft_remove, h, hr]
  · intro h
    cases hf : dictFind s.records resource_id with
    | none => simp [ConditionStore.soft_remove, hf]
    | some r =>
      by_cases hr : r.is_removed <;>
        simp [ConditionStore.soft_remove, hf, hr] at h ⊢
  · intro r h hr
    simp [ConditionStore.soft_remove, h, hr]

/-- C9 witness: on `mixedStore`, removing the already-removed id `gone`
fails and keeps `removed_count` at its old value, while removing the
active id `dup` succeeds and rewrites exactly that record. -/
theorem soft_remove_active_only_witness :
    dictFind mixedStore.records "gone" = some removedRecord ∧
    (mixedStore.soft_remove "gone" "again" ⟨1, "t1"⟩).1 = false ∧
    (mixedStore.soft_remove "gone" "again" ⟨1, "t1"⟩).2.removed_count =
      mixedStore.removed_count ∧
    (mixedStore.soft_remove "dup" "cleanup" ⟨2, "t2"⟩).1 = true ∧
    (mixedStore.soft_remove "dup" "cleanup" ⟨2, "t2"⟩).2.records =
      dictSet mixedStore.records "dup" (markRemoved dupRecordA "cleanup" ⟨2, "t2"⟩) := by
  have h₁ := (soft_remove_active_only mixedStore "gone" "again" ⟨1, "t1"⟩).2.2.2
    removedRecord (by decide) (by decide)
  have h₂ := (soft_remove_active_only mixedStore "dup" "cleanup" ⟨2, "t2"⟩).2.1
    dupRecordA (by decide) (by decide)
  exact ⟨by decide, h₁.1, h₁.2, h₂.1, h₂.2⟩

/-- C10: a code filter scoped to an unrecognized coding-system alias
silently behaves exactly like an unscoped code filter: it matches against
the record's global `all_codes` set. -/
theorem unknown_code_system_scope_falls_back (r : ConditionRecord)
    (code code_system : String)
    (h : pyLower code_system ∉ ["icd10", "icd-10", "snomed", "icd9", "icd-9", "imo"]) :
    matches_code r code (some code_system) = r.all_codes.contains code ∧
    matches_code r code (some code_system) = matches_code r code none := by
  by_cases he : code_system = ""
  · subst he
    exact ⟨rfl, rfl⟩
  · simp only [List.mem_cons, not_or, List.not_mem_nil, not_false_iff, and_true] at h
    obtain ⟨h1, h2, h3, h4, h5, h6⟩ := h
    have hfind :
        dictFind [("icd10", r.icd10_codes), ("icd-10", r.icd10_codes),
          ("snomed", r.snomed_codes), ("icd9", r.icd9_codes),
          ("icd-9", r.icd9_codes), ("imo", r.imo_codes)] (pyLower code_system) = none := by
      simp only [dictFind_cons, dictFind_nil]
      rw [if_neg (fun e => h1 e.symm), if_neg (fun e => h2 e.symm),
          if_neg (fun e => h3 e.symm), if_neg (fun e => h4 e.symm),
          if_neg (fun e => h5 e.symm), if_neg (fun e => h6 e.symm)]
    constructor
    · simp [matches_code, he, hfind]
    · simp [matches_code, he, hfind]

/-- C10 witness: the unrecognized alias `LOINC` matches `Z22.7` against the
global code set of `tbCodeRecord`, exactly as the unscoped filter does. -/
theorem unknown_code_system_scope_falls_back_witness :
    pyLower "LOINC" ∉ ["icd10", "icd-10", "snomed", "icd9", "icd-9", "imo"] ∧
    matches_code tbCodeRecord "Z22.7" (some "LOINC") =
      tbCodeRecord.all_codes.contains "Z22.7" ∧
    matches_code tbCodeRecord "Z22.7" (some "LOINC") =
      matches_code tbCodeRecord "Z22.7" none := by
  refine ⟨by decide, ?_, ?_⟩
  · exact (unknown_code_system_scope_falls_back tbCodeRecord "Z22.7" "LOINC" (by decide)).1
  · exact (unknown_code_system_scope_falls_back tbCodeRecord "Z22.7" "LOINC" (by decide)).2

theorem mem_ite_singleton {x a : String} {p : Prop} [Decidable p] :
    (x ∈ if p then [a] else []) ↔ p ∧ x = a := by
  split <;> simp_all

/-- C6: `inconsistent_status` fires iff the status is `active` with an end
date or `resolved` without one; `short_duration` fires iff both onset dates
are present with the end strictly after the start by less than 24 hours
(3600 seconds fires, 90000 seconds does not); no flag is appended twice. -/
theorem quality_flags_status_and_duration (condition : FhirCondition)
    (code_sets : CodeSets) (normalized_status : String)
    (onset_start onset_end : Option PyDateTime) :
    ("inconsistent_status" ∈
        detect_quality_flags condition code_sets normalized_status onset_start onset_end ↔
      (normalized_status = "active" ∧ onset_end ≠ none) ∨
      (normalized_status = "resolved" ∧ onset_end = none)) ∧
    ("short_duration" ∈
        detect_quality_flags condition code_sets normalized_status onset_start onset_end ↔
      ∃ s e, onset_start = some s ∧ onset_end = some e ∧
        0 < e.epochSec - s.epochSec ∧ e.epochSec - s.epochSec < 86400) ∧
    (detect_quality_flags condition code_sets normalized_status onset_start onset_end).Nodup ∧
    ("short_duration" ∈ detect_quality_flags condition code_sets normalized_status
        (some ⟨0, "t0"⟩) (some ⟨3600, "t1"⟩)) ∧
    ("short_duration" ∉ detect_quality_flags condition code_sets normalized_status
        (some ⟨0, "t0"⟩) (some ⟨90000, "t2"⟩)) := by
  have mem_short : ∀ (os oe : Option PyDateTime),
      ("short_duration" ∈
          detect_quality_flags condition code_sets normalized_status os oe ↔
        ∃ s e, os = some s ∧ oe = some e ∧
          0 < e.epochSec - s.epochSec ∧ e.epochSec - s.epochSec < 86400) := by
    intro os oe
    rcases os with _ | s <;> rcases oe with _ | e <;>
      simp [detect_quality_flags, List.mem_append, mem_ite_singleton]
  refine ⟨?_, mem_short onset_start onset_end, ?_, ?_, ?_⟩
  · rcases onset_end with _ | e
    · rcases onset_start with _ | s <;>
        simp [detect_quality_flags, List.mem_append, mem_ite_singleton]
    · rcases onset_start with _ | s <;>
        by_cases ha : normalized_status = "active" <;>
        simp [detect_quality_flags, List.mem_append, mem_ite_singleton, ha]
  · rcases onset_start with _ | s <;> rcases onset_end with _ | e <;>
      · simp only [detect_quality_flags]
        split_ifs <;> decide
  · rw [mem_short]
    exact ⟨⟨0, "t0"⟩, ⟨3600, "t1"⟩, rfl, rfl, by decide, by decide⟩
  · rw [mem_short]
    rintro ⟨s, e, hs, he, h1, h2⟩
    cases hs
    cases he
    revert h1 h2
    decide

/-- The status normalization of the code agrees with the amended spec
description for every condition. -/
theorem normalize_eq_spec (c : FhirCondition) :
    normalize_clinical_status c =
      specNormalizedStatus (c.clinicalStatus.map (fun cs => cs.text.getD "")) := by
  cases hcs : c.clinicalStatus with
  | none => simp [normalize_clinical_status, specNormalizedStatus, hcs]
  | some cs =>
    simp only [normalize_clinical_status, specNormalizedStatus, hcs, Option.map_some]
    by_cases h1 : pyLower (pyStrip (cs.text.getD "")) = "active"
    · simp [CLINICAL_STATUS_NORMALIZATION, dictFind_cons, h1]
    · by_cases h2 : pyLower (pyStrip (cs.text.getD "")) = "active (qualifier value)"
      · simp [CLINICAL_STATUS_NORMALIZATION, dictFind_cons, h2]
      · by_cases h3 : pyLower (pyStrip (cs.text.getD "")) = "resolved"
        · simp [CLINICAL_STATUS_NORMALIZATION, dictFind_cons, h3]
        · have h1' : ¬("active" = pyLower (pyStrip (cs.text.getD ""))) :=
            fun e => h1 e.symm
          have h2' : ¬("active (qualifier value)" = pyLower (pyStrip (cs.text.getD ""))) :=
            fun e => h2 e.symm
          have h3' : ¬("resolved" = pyLower (pyStrip (cs.text.getD ""))) :=
            fun e => h3 e.symm
          by_cases h4 : pyLower (pyStrip (cs.text.getD "")) = ""
          · simp [CLINICAL_STATUS_NORMALIZATION, dictFind_cons, h1, h2, h3, h4, h1', h2', h3']
          · simp [CLINICAL_STATUS_NORMALIZATION, dictFind_cons, h1, h2, h3, h4, h1', h2', h3']

/-- C3 counterexample: the record built from `rawRemission` (status text
` Remission `) has normalized status `remission`, which is none of
`active`, `resolved`, `unknown` — an unrecognized non-empty status is not
mapped to `unknown`. -/
theorem normalized_status_passthrough_counterexample :
    (build_condition_record rawRemission 1).toOption.map
        (fun rec => rec.normalized_status) = some "remission" ∧
    ¬("remission" = "active" ∨ "remission" = "resolved" ∨ "remission" = "unknown") := by
  exact ⟨rfl, by decide⟩

/-- C3 amended: for every built record, `normalized_status` is the
clinical-status text lower-cased, trimmed and mapped through the synonym
table, with absent status or empty text giving `unknown` and unrecognized
non-empty text passing through verbatim; `Active (Qualifier value)`
normalizes to `active`. -/
theorem normalized_status_amended (raw : RawInput) (n : Nat) (rec : ConditionRecord)
    (h : build_condition_record raw n = .ok rec) :
    rec.normalized_status =
      specNormalizedStatus (raw.clinicalStatus.map (fun cs => cs.text.getD "")) ∧
    specNormalizedStatus (some "Active (Qualifier value)") = "active" ∧
    specNormalizedStatus none = "unknown" := by
  refine ⟨?_, by decide, rfl⟩
  cases hid : raw.id with
  | none => simp [build_condition_record, model_validate, hid] at h
  | some i =>
    simp only [build_condition_record, model_validate, hid, Except.ok.injEq] at h
    subst h
    exact normalize_eq_spec _

/-- C3 witness: the amended theorem applied to `rawActive`, whose status
text `Active (Qualifier value)` normalizes to `active`. -/
theorem normalized_status_amended_witness :
    build_condition_record rawActive 1 =
      .ok ((build_condition_record rawActive 1).toOption.get rfl) ∧
    ((build_condition_record rawActive 1).toOption.get rfl).normalized_status =
      specNormalizedStatus (rawActive.clinicalStatus.map (fun cs => cs.text.getD "")) := by
  exact ⟨rfl, (normalized_status_amended rawActive 1 _ rfl).1⟩

/-- Loop invariant of `ingest_batch`: the fold keeps `batch_number` and
`received`, counts one `errored` per failing input, one `added` or
`skipped_duplicate` per succeeding input, and processes every input. -/
theorem ingest_fold_spec (n : Nat) (raws : List RawInput) :
    ∀ (acc : BatchMetrics × List (String × Nat) × ConditionStore),
      ((raws.foldl (ingestStep n) acc).1.batch_number = acc.1.batch_number) ∧
      ((raws.foldl (ingestStep n) acc).1.received = acc.1.received) ∧
      ((raws.foldl (ingestStep n) acc).1.errored =
        acc.1.errored + raws.countP (fun r => decide (r.id = none))) ∧
      ((raws.foldl (ingestStep n) acc).1.added +
          (raws.foldl (ingestStep n) acc).1.skipped_duplicate =
        acc.1.added + acc.1.skipped_duplicate +
          raws.countP (fun r => decide (r.id ≠ none))) ∧
      ((raws.foldl (ingestStep n) acc).1.added +
          (raws.foldl (ingestStep n) acc).1.skipped_duplicate +
          (raws.foldl (ingestStep n) acc).1.errored =
        acc.1.added + acc.1.skipped_duplicate + acc.1.errored + raws.length) := by
  induction raws with
  | nil => intro acc; simp
  | cons r rest ih =>
    intro acc
    obtain ⟨m, fc, st⟩ := acc
    rw [List.foldl_cons]
    cases hid : r.id with
    | none =>
      have hb : build_condition_record r n = Except.error "Field required: id" := by
        simp [build_condition_record, model_validate, hid]
      have hstep : ingestStep n (m, fc, st) r =
          ({ m with errored := m.errored + 1 }, fc, st) := by
        simp [ingestStep, hb]
      rw [hstep]
      have h := ih ({ m with errored := m.errored + 1 }, fc, st)
      refine ⟨h.1, h.2.1, ?_, ?_, ?_⟩ <;>
        simp only [List.countP_cons, hid] at h ⊢ <;> simp at h ⊢ <;> omega
    | some i =>
      cases hb : build_condition_record r n with
      | error e =>
        exfalso
        simp [build_condition_record, model_validate, hid] at hb
      | ok record =>
        cases hAdd : st.add record with
        | mk inserted store' =>
          cases inserted with
          | true =>
            have hstep : ingestStep n (m, fc, st) r =
                ({ m with added := m.added + 1 },
                 record.quality_flags.foldl
                   (fun acc flag => dictSet acc flag ((dictFind acc flag).getD 0 + 1)) fc,
                 store') := by
              simp [ingestStep, hb, hAdd]
            rw [hstep]
            have h := ih ({ m with added := m.added + 1 },
              record.quality_flags.foldl
                (fun acc flag => dictSet acc flag ((dictFind acc flag).getD 0 + 1)) fc,
              store')
            refine ⟨h.1, h.2.1, ?_, ?_, ?_⟩ <;>
              simp only [List.countP_cons, hid] at h ⊢ <;> simp at h ⊢ <;> omega
          | false =>
            have hstep : ingestStep n (m, fc, st) r =
                ({ m with skipped_duplicate := m.skipped_duplicate + 1 }, fc, store') := by
              simp [ingestStep, hb, hAdd]
            rw [hstep]
            have h := ih ({ m with skipped_duplicate := m.skipped_duplicate + 1 }, fc, store')
            refine ⟨h.1, h.2.1, ?_, ?_, ?_⟩ <;>
              simp only [List.countP_cons, hid] at h ⊢ <;> simp at h ⊢ <;> omega

/-- C2: `build_condition_record` fails (with the record-level error) exactly
when the input misses its mandatory identity, and `ingest_batch` never
propagates such a failure: each one is counted in `errored` and skipped
while every convertible input of the batch is still processed (counted in
`added` or `skipped_duplicate`). -/
theorem build_failure_counted_never_raised :
    (∀ (raw : RawInput) (n : Nat),
      ((build_condition_record raw n).toOption = none ↔ raw.id = none)) ∧
    (∀ (raws : List RawInput) (n : Nat) (store : ConditionStore)
        (d : MonitoringDashboard),
      (ingest_batch raws n store d).1.errored =
        raws.countP (fun r => decide (r.id = none)) ∧
      (ingest_batch raws n store d).1.added +
          (ingest_batch raws n store d).1.skipped_duplicate =
        raws.countP (fun r => decide (r.id ≠ none))) := by
  constructor
  · intro raw n
    cases hid : raw.id with
    | none => simp [build_condition_record, model_validate, hid, Except.toOption]
    | some i => simp [build_condition_record, model_validate, hid, Except.toOption]
  · intro raws n store d
    have h := ingest_fold_spec n raws
      ({ batch_number := n, received := raws.length }, [], store)
    rcases hfold : raws.foldl (ingestStep n)
        ({ batch_number := n, received := raws.length }, [], store) with ⟨m, fc, st⟩
    rw [hfold] at h
    have hib : ingest_batch raws n store d =
        ({ m with flags := fc }, st, d.record_batch { m with flags := fc }) := by
      simp only [ingest_batch]
      rw [hfold]
    rw [hib]
    constructor
    · simpa using h.2.2.1
    · simpa using h.2.2.2.1

/-- C7: `ingest_batch` commits exactly one `BatchMetrics` entry to the
ledger, with `received` equal to the number of inputs and
`received = added + skipped_duplicate + errored`; a concrete batch of 4
inputs with 1 duplicate id and 1 malformed entry yields
`received=4, added=2, skipped_duplicate=1, errored=1`. -/
theorem ingest_batch_metrics_complete (raws : List RawInput) (n : Nat)
    (store : ConditionStore) (d : MonitoringDashboard) :
    (ingest_batch raws n store d).1.received = raws.length ∧
    (ingest_batch raws n store d).1.received =
      (ingest_batch raws n store d).1.added +
        (ingest_batch raws n store d).1.skipped_duplicate +
        (ingest_batch raws n store d).1.errored ∧
    (ingest_batch raws n store d).2.2.ingestion_batches =
      d.ingestion_batches ++ [(ingest_batch raws n store d).1] ∧
    ((ingest_batch [rawPlain, rawPlain, rawNoId, rawActive] 1 ⟨[]⟩ {}).1.received = 4 ∧
     (ingest_batch [rawPlain, rawPlain, rawNoId, rawActive] 1 ⟨[]⟩ {}).1.added = 2 ∧
     (ingest_batch [rawPlain, rawPlain, rawNoId, rawActive] 1 ⟨[]⟩ {}).1.skipped_duplicate = 1 ∧
     (ingest_batch [rawPlain, rawPlain, rawNoId, rawActive] 1 ⟨[]⟩ {}).1.errored = 1) := by
  have h := ingest_fold_spec n raws
    ({ batch_number := n, received := raws.length }, [], store)
  rcases hfold : raws.foldl (ingestStep n)
      ({ batch_number := n, received := raws.length }, [], store) with ⟨m, fc, st⟩
  rw [hfold] at h
  have hib : ingest_batch raws n store d =
      ({ m with flags := fc }, st, d.record_batch { m with flags := fc }) := by
    simp only [ingest_batch]
    rw [hfold]
  rw [hib]
  refine ⟨?_, ?_, ?_, by decide, by decide, by decide, by decide⟩
  · simpa using h.2.1
  · have h1 : m.received = raws.length := by simpa using h.2.1
    have h2 := h.2.2.2.2
    simp at h2 ⊢
    omega
  · simp [MonitoringDashboard.record_batch]

/-- A text containing `hx of latent tb` also contains `latent tb`. -/
theorem pyIn_hx_latent {t : String} (h : pyIn "hx of latent tb" t = true) :
    pyIn "latent tb" t = true := by
  have hsplit : ("hx of latent tb" : String).data =
      ("hx of " : String).data ++ ("latent tb" : String).data := by decide
  unfold pyIn at h ⊢
  rw [hsplit] at h
  exact chIn_append_left h

/-- The tuberculosis predicate of the registry matches a record exactly on
the disjunction of its `tuberculosis`/`latent tb` text patterns and its
ICD-10/SNOMED code sets. -/
theorem tb_predicate_matches_iff (r : ConditionRecord) :
    matches_predicate r tbPredicate = true ↔
      (pyIn "tuberculosis" r.searchable_text = true ∨
       pyIn "latent tb" r.searchable_text = true ∨
       hasCommon r.icd10_codes ["Z22.7", "Z86.15"] = true ∨
       hasCommon r.snomed_codes ["11999007", "428934008"] = true) := by
  have hsub := @pyIn_hx_latent r.searchable_text
  simp only [matches_predicate, tbPredicate, List.any_cons, List.any_nil]
  cases h1 : pyIn "tuberculosis" r.searchable_text <;>
    cases h2 : pyIn "latent tb" r.searchable_text <;>
    cases h3 : pyIn "hx of latent tb" r.searchable_text <;>
    cases h4 : hasCommon r.icd10_codes ["Z22.7", "Z86.15"] <;>
    cases h5 : hasCommon r.snomed_codes ["11999007", "428934008"] <;>
    simp_all

/-- Bindings whose key differs from `resource_id` are untouched by the
soft-removal rewrite. -/
theorem map_mark_of_absent (rest : List (String × ConditionRecord))
    (resource_id reason : String) (now : PyDateTime)
    (h : resource_id ∉ rest.map Prod.fst) :
    rest.map (fun p => if p.1 = resource_id ∧ p.2.is_removed = false
        then (p.1, markRemoved p.2 reason now) else p) = rest := by
  induction rest with
  | nil => rfl
  | cons p rest ih =>
    simp only [List.map_cons, List.mem_cons, not_or] at h ⊢
    rw [if_neg (fun hc => h.1 hc.1.symm), ih h.2]

/-- `soft_remove` on a store with unique keys rewrites exactly the binding
of the removed id (when it is active) and nothing else. -/
theorem soft_remove_records_map (l : List (String × ConditionRecord))
    (resource_id reason : String) (now : PyDateTime)
    (hnd : (l.map Prod.fst).Nodup) :
    (ConditionStore.soft_remove ⟨l⟩ resource_id reason now).2.records =
      l.map (fun p => if p.1 = resource_id ∧ p.2.is_removed = false
        then (p.1, markRemoved p.2 reason now) else p) := by
  induction l with
  | nil => rfl
  | cons p rest ih =>
    obtain ⟨k, v⟩ := p
    simp only [List.map_cons, List.nodup_cons] at hnd
    by_cases hk : k = resource_id
    · subst hk
      by_cases hv : v.is_removed <;>
        simp [ConditionStore.soft_remove, dictFind_cons, hv, dictSet,
              map_mark_of_absent rest k reason now hnd.1]
    · have hstep : (ConditionStore.soft_remove ⟨(k, v) :: rest⟩ resource_id reason now).2.records =
          (k, v) :: (ConditionStore.soft_remove ⟨rest⟩ resource_id reason now).2.records := by
        cases hf : dictFind rest resource_id with
        | none =>
          simp [ConditionStore.soft_remove, dictFind_cons, hk, hf]
        | some r =>
          by_cases hr : r.is_removed <;>
            simp [ConditionStore.soft_remove, dictFind_cons, hk, hf, hr, dictSet]
      rw [hstep, ih hnd.2]
      simp only [List.map_cons]
      rw [if_neg (fun hc => hk hc.1)]

/-- Folding `soft_remove` over a list of ids marks exactly the active
bindings of those ids. -/
theorem foldl_soft_remove_records (reason : String) (now : PyDateTime)
    (L : List String) :
    ∀ (l : List (String × ConditionRecord)), (l.map Prod.fst).Nodup →
      (L.foldl (fun st i => (ConditionStore.soft_remove st i reason now).2)
          (⟨l⟩ : ConditionStore)).records =
        l.map (fun p => if p.1 ∈ L ∧ p.2.is_removed = false
          then (p.1, markRemoved p.2 reason now) else p) := by
  induction L with
  | nil =>
    intro l _
    simp
  | cons i L' ih =>
    intro l hnd
    rw [List.foldl_cons]
    have h1 := soft_remove_records_map l i reason now hnd
    have heq : (ConditionStore.soft_remove ⟨l⟩ i reason now).2 =
        (⟨l.map (fun p => if p.1 = i ∧ p.2.is_removed = false
          then (p.1, markRemoved p.2 reason now) else p)⟩ : ConditionStore) := by
      cases hs : (ConditionStore.soft_remove ⟨l⟩ i reason now).2 with
      | mk recs =>
        rw [hs] at h1
        simpa using h1
    rw [heq]
    have hkeys : ((l.map (fun p => if p.1 = i ∧ p.2.is_removed = false
        then (p.1, markRemoved p.2 reason now) else p)).map Prod.fst) = l.map Prod.fst := by
      rw [List.map_map]
      apply List.map_congr_left
      intro p _
      by_cases hc : p.1 = i ∧ p.2.is_removed = false <;> simp [hc]
    rw [ih _ (by rw [hkeys]; exact hnd), List.map_map]
    apply List.map_congr_left
    intro p _
    by_cases hpi : p.1 = i <;>
      by_cases hrem : p.2.is_removed = false <;>
      by_cases hmem : p.1 ∈ L' <;>
      simp [hpi, hrem, hmem, markRemoved, Function.comp]

/-- The store component of the label-collecting removal fold is the plain
`soft_remove` fold. -/
theorem apply_fold_store (reason : String) (now : PyDateTime)
    (ms : List ConditionRecord) :
    ∀ (s : ConditionStore) (lbls : List String),
      (ms.foldl (fun acc record =>
          ((acc.1.soft_remove record.resource_id reason now).2,
           if (acc.1.soft_remove record.resource_id reason now).1
           then acc.2 ++ [removalLabel record] else acc.2)) (s, lbls)).1 =
      ms.foldl (fun st record =>
        (ConditionStore.soft_remove st record.resource_id reason now).2) s := by
  induction ms with
  | nil => intro s lbls; rfl
  | cons r ms ih =>
    intro s lbls
    rw [List.foldl_cons, List.foldl_cons]
    exact ih _ _

/-- Membership of a binding's id among the matched records, under the store
invariant: exactly the active records matching the predicate. -/
theorem matched_ids_char (l : List (String × ConditionRecord))
    (pred : RemovalPredicate)
    (hnd : (l.map Prod.fst).Nodup) (hids : ∀ p ∈ l, p.1 = p.2.resource_id)
    (p : String × ConditionRecord) (hp : p ∈ l) :
    (p.1 ∈ ((ConditionStore.get_all_active ⟨l⟩).filter
        (fun r => matches_predicate r pred)).map (fun r => r.resource_id) ↔
      p.2.is_removed = false ∧ matches_predicate p.2 pred = true) := by
  constructor
  · intro h
    obtain ⟨q, hq, hqid⟩ := List.mem_map.mp h
    obtain ⟨hqa, hqm⟩ := List.mem_filter.mp hq
    obtain ⟨hqmem, hqact⟩ := List.mem_filter.mp hqa
    obtain ⟨b, hb, hbq⟩ := List.mem_map.mp hqmem
    have hbkey : b.1 = p.1 := by
      rw [hids b hb, hbq, hqid]
    have hbp : b = p := List.inj_on_of_nodup_map hnd hb hp hbkey
    have hq2 : p.2 = q := by rw [← hbp]; exact hbq
    constructor
    · rw [hq2]; simpa using hqact
    · rw [hq2]; exact hqm
  · rintro ⟨hact, hm⟩
    apply List.mem_map.mpr
    refine ⟨p.2, List.mem_filter.mpr ⟨List.mem_filter.mpr ⟨List.mem_map.mpr ⟨p, hp, rfl⟩, by simp [hact]⟩, hm⟩, (hids p hp).symm⟩

/-- C1 counterexample: `tbTextRecord` (searchable text
`pulmonary tuberculosis`) satisfies none of the claim's criteria — its text
does not contain `latent tb` and it has no ICD-10 or SNOMED codes — yet
`remove_by_predicate("tuberculosis", ...)` soft-removes it, because the
registry predicate also carries the text pattern `tuberculosis`. -/
theorem remove_by_predicate_tb_counterexample :
    pyIn "latent tb" tbTextRecord.searchable_text = false ∧
    hasCommon tbTextRecord.icd10_codes ["Z22.7", "Z86.15"] = false ∧
    hasCommon tbTextRecord.snomed_codes ["11999007", "428934008"] = false ∧
    (remove_by_predicate "tuberculosis" "cleanup" ⟨0, "t0"⟩ tbTextStore
        {}).2.1.records.map (fun p => p.2.is_removed) = [true] ∧
    (remove_by_predicate "tuberculosis" "cleanup" ⟨0, "t0"⟩ tbTextStore
        {}).1.records_removed = 1 := by
  exact ⟨rfl, rfl, rfl, rfl, rfl⟩

/-- C1 amended: for a well-formed store, `remove_by_predicate("tuberculosis",
reason)` soft-removes an active record iff its searchable text contains
`tuberculosis` or `latent tb`, or its ICD-10 set meets {Z22.7, Z86.15}, or
its SNOMED set meets {11999007, 428934008} (the registry pattern
`hx of latent tb` is subsumed by `latent tb`); every other record is left
untouched. -/
theorem remove_by_predicate_tb_amended (reason : String) (now : PyDateTime)
    (s : ConditionStore) (d : MonitoringDashboard) (hwf : s.WF) :
    (remove_by_predicate "tuberculosis" reason now s d).2.1.records =
      s.records.map (fun p =>
        if p.2.is_removed = false ∧
            (pyIn "tuberculosis" p.2.searchable_text = true ∨
             pyIn "latent tb" p.2.searchable_text = true ∨
             hasCommon p.2.icd10_codes ["Z22.7", "Z86.15"] = true ∨
             hasCommon p.2.snomed_codes ["11999007", "428934008"] = true)
        then (p.1, markRemoved p.2 reason now) else p) := by
  obtain ⟨hnd, hids⟩ := hwf
  have hrw : remove_by_predicate "tuberculosis" reason now s d =
      apply_removals s d
        ((ConditionStore.get_all_active s).filter (fun r => matches_predicate r tbPredicate))
        "remove_by_predicate" "tuberculosis" reason now := rfl
  rw [hrw]
  set matched :=
    (ConditionStore.get_all_active s).filter (fun r => matches_predicate r tbPredicate)
    with hmdef
  cases hempty : matched.isEmpty with
  | true =>
    have hnil : matched = [] := List.isEmpty_iff.mp hempty
    have habs : ∀ p ∈ s.records, ¬(p.2.is_removed = false ∧
        (pyIn "tuberculosis" p.2.searchable_text = true ∨
         pyIn "latent tb" p.2.searchable_text = true ∨
         hasCommon p.2.icd10_codes ["Z22.7", "Z86.15"] = true ∨
         hasCommon p.2.snomed_codes ["11999007", "428934008"] = true)) := by
      intro p hp hc
      have hm : matches_predicate p.2 tbPredicate = true :=
        (tb_predicate_matches_iff p.2).mpr hc.2
      have hin := (matched_ids_char s.records tbPredicate hnd hids p hp).mpr ⟨hc.1, hm⟩
      rw [← hmdef, hnil] at hin
      simp at hin
    simp only [apply_removals, hempty, Bool.false_eq_true, if_true]
    rw [List.map_congr_left (fun p hp => if_neg (habs p hp))]
    simp
  | false =>
    simp only [apply_removals, hempty, Bool.false_eq_true, if_false]
    rw [apply_fold_store reason now matched s ([] : List String)]
    rw [← List.foldl_map (fun r : ConditionRecord => r.resource_id)
      (fun st i => (ConditionStore.soft_remove st i reason now).2) matched s]
    rw [foldl_soft_remove_records reason now
      (matched.map (fun r => r.resource_id)) s.records hnd]
    apply List.map_congr_left
    intro p hp
    have hchar := matched_ids_char s.records tbPredicate hnd hids p hp
    have htb := tb_predicate_matches_iff p.2
    by_cases hrem : p.2.is_removed = false
    · by_cases hcl : (pyIn "tuberculosis" p.2.searchable_text = true ∨
          pyIn "latent tb" p.2.searchable_text = true ∨
          hasCommon p.2.icd10_codes ["Z22.7", "Z86.15"] = true ∨
          hasCommon p.2.snomed_codes ["11999007", "428934008"] = true)
      · have hin : p.1 ∈ matched.map (fun r => r.resource_id) :=
          hchar.mpr ⟨hrem, htb.mpr hcl⟩
        rw [if_pos ⟨hin, hrem⟩, if_pos ⟨hrem, hcl⟩]
      · have hnin : p.1 ∉ matched.map (fun r => r.resource_id) :=
          fun hin => hcl (htb.mp (hchar.mp hin).2)
        rw [if_neg (fun hc => hnin hc.1), if_neg (fun hc => hcl hc.2)]
    · rw [if_neg (fun hc => hrem hc.2), if_neg (fun hc => hrem hc.1)]

/-- C1 witness: the amended theorem applied to a one-record well-formed
store holding `tbCodeRecord`, which carries ICD-10 `Z22.7` and is removed. -/
theorem remove_by_predicate_tb_amended_witness :
    ConditionStore.WF ⟨[("tb2", tbCodeRecord)]⟩ ∧
    (remove_by_predicate "tuberculosis" "cleanup" ⟨0, "t0"⟩
        (⟨[("tb2", tbCodeRecord)]⟩ : ConditionStore) {}).2.1.records =
      [("tb2", tbCodeRecord)].map (fun p =>
        if p.2.is_removed = false ∧
            (pyIn "tuberculosis" p.2.searchable_text = true ∨
             pyIn "latent tb" p.2.searchable_text = true ∨
             hasCommon p.2.icd10_codes ["Z22.7", "Z86.15"] = true ∨
             hasCommon p.2.snomed_codes ["11999007", "428934008"] = true)
        then (p.1, markRemoved p.2 "cleanup" ⟨0, "t0"⟩) else p) := by
  constructor
  · constructor
    · simp
    · intro p hp
      simp at hp
      rw [hp]
      rfl
  · exact remove_by_predicate_tb_amended "cleanup" ⟨0, "t0"⟩
      ⟨[("tb2", tbCodeRecord)]⟩ {} ⟨by simp, by intro p hp; simp at hp; rw [hp]; rfl⟩

theorem dictFind_isSome_iff_mem_keys {β : Type} (l : List (String × β)) (k : String) :
    ((dictFind l k).isSome = true) ↔ k ∈ l.map Prod.fst := by
  induction l with
  | nil => simp
  | cons p rest ih =>
    obtain ⟨k₀, v₀⟩ := p
    by_cases hk : k₀ = k
    · simp [dictFind_cons, hk]
    · rw [dictFind_cons, if_neg hk]
      simp only [List.map_cons, List.mem_cons]
      rw [ih]
      constructor
      · exact fun h => Or.inr h
      · rintro (he | hm)
        · exact absurd he.symm hk
        · exact hm

theorem dictFind_eq_some_of_mem_nodup {β : Type} {l : List (String × β)}
    (hnd : (l.map Prod.fst).Nodup) {k : String} {v : β} (h : (k, v) ∈ l) :
    dictFind l k = some v := by
  induction l with
  | nil => simp at h
  | cons p rest ih =>
    obtain ⟨k₀, v₀⟩ := p
    simp only [List.map_cons, List.nodup_cons] at hnd
    rcases List.mem_cons.mp h with he | hm
    · obtain ⟨h1, h2⟩ := Prod.ext_iff.mp he
      rw [dictFind_cons, if_pos h1.symm]
      exact congrArg some h2.symm
    · have hne : k₀ ≠ k := by
        intro he'
        subst he'
        exact hnd.1 (List.mem_map.mpr ⟨(k₀, v), hm, rfl⟩)
      rw [dictFind_cons, if_neg hne]
      exact ih hnd.2 hm

theorem mem_of_dictFind_eq_some {β : Type} {l : List (String × β)} {k : String} {v : β}
    (h : dictFind l k = some v) : (k, v) ∈ l := by
  induction l with
  | nil => simp at h
  | cons p rest ih =>
    obtain ⟨k₀, v₀⟩ := p
    rw [dictFind_cons] at h
    by_cases hk : k₀ = k
    · rw [if_pos hk] at h
      subst hk
      have hv := Option.some.inj h
      subst hv
      exact List.mem_cons_self _ _
    · rw [if_neg hk] at h
      exact List.mem_cons_of_mem _ (ih h)

theorem memberPeriods_append (rs : List ConditionRecord) (r : ConditionRecord)
    (c : String) :
    memberPeriods (rs ++ [r]) c =
      memberPeriods rs c ++
        (if (canonical_code r).1 = c then
          (match r.onset_start, r.onset_end with
           | some s, some e => [(s.iso, e.iso)]
           | _, _ => []) else []) := by
  unfold memberPeriods
  rw [List.filter_append, List.filterMap_append]
  congr 1
  by_cases hc : (canonical_code r).1 = c
  · rcases hos : r.onset_start with _ | s <;> rcases hoe : r.onset_end with _ | e <;>
      simp [hc, List.filterMap, hos, hoe]
  · simp [hc]

theorem memberPeriods_nil_of_no_member (rs : List ConditionRecord) (c : String)
    (h : ∀ r ∈ rs, (canonical_code r).1 ≠ c) : memberPeriods rs c = [] := by
  unfold memberPeriods
  rw [List.filter_eq_nil_iff.mpr (by simpa using h)]
  rfl

/-- One record preserves the grouping-fold invariant. -/
theorem groupStep_inv (rs : List ConditionRecord) (r : ConditionRecord)
    (st : List (String × ConditionGroup) × List (String × List (String × String)))
    (h : GroupInv rs st) : GroupInv (rs ++ [r]) (groupStep st r) := by
  have hens : ∃ st₁ : List (String × ConditionGroup) × List (String × List (String × String)),
      (groupStep st r =
        match dictFind st₁.1 (canonical_code r).1 with
        | none => st₁
        | some g =>
          (dictSet st₁.1 (canonical_code r).1 (updateGroup g r),
           match r.onset_start, r.onset_end with
           | some s, some e =>
             dictSet st₁.2 (canonical_code r).1
               (((dictFind st₁.2 (canonical_code r).1).getD []) ++ [(s.iso, e.iso)])
           | _, _ => st₁.2)) ∧
      GroupInv rs st₁ ∧ (dictFind st₁.1 (canonical_code r).1).isSome = true := by
    obtain ⟨hnd, hkeys, hgroups, hperiods, hmem⟩ := h
    cases hex : (dictFind st.1 (canonical_code r).1).isSome with
    | true =>
      refine ⟨st, ?_, ⟨hnd, hkeys, hgroups, hperiods, hmem⟩, hex⟩
      simp only [groupStep, hex, if_true]
    | false =>
      have hnone : dictFind st.1 (canonical_code r).1 = none := by
        cases hfind : dictFind st.1 (canonical_code r).1 with
        | none => rfl
        | some g => rw [hfind] at hex; simp at hex
      have hnomem : ∀ r' ∈ rs, (canonical_code r').1 ≠ (canonical_code r).1 := by
        intro r' hr' he
        have hmem' := hmem r' hr'
        rw [he, hnone] at hmem'
        simp at hmem'
      refine ⟨(st.1 ++ [((canonical_code r).1,
                 groupInit (canonical_code r).1 (canonical_code r).2 r)],
               st.2 ++ [((canonical_code r).1, [])]), ?_, ?_, ?_⟩
      · simp only [groupStep, hex, Bool.false_eq_true, if_false]
      · refine ⟨?_, ?_, ?_, ?_, ?_⟩
        · rw [List.map_append, List.nodup_append]
          refine ⟨hnd, by simp, ?_⟩
          intro a ha hb
          simp only [List.map_cons, List.map_nil, List.mem_singleton] at hb
          rw [hb] at ha
          rw [← dictFind_isSome_iff_mem_keys, hnone] at ha
          simp at ha
        · simp [List.map_append, hkeys]
        · intro c g hg
          cases hf : dictFind st.1 c with
          | some g₀ =>
            rw [dictFind_append_left hf] at hg
            rw [← Option.some.inj hg]
            exact hgroups c g₀ hf
          | none =>
            rw [dictFind_append_right hf, dictFind_cons] at hg
            by_cases hc : (canonical_code r).1 = c
            · rw [if_pos hc] at hg
              rw [← Option.some.inj hg]
              exact ⟨hc, rfl⟩
            · rw [if_neg hc] at hg
              simp at hg
        · intro c ps hps
          cases hf : dictFind st.2 c with
          | some ps₀ =>
            rw [dictFind_append_left hf] at hps
            rw [← Option.some.inj hps]
            exact hperiods c ps₀ hf
          | none =>
            rw [dictFind_append_right hf, dictFind_cons] at hps
            by_cases hc : (canonical_code r).1 = c
            · rw [if_pos hc] at hps
              rw [← Option.some.inj hps]
              exact (memberPeriods_nil_of_no_member rs c
                (fun r' hr' he => hnomem r' hr' (he.trans hc.symm))).symm
            · rw [if_neg hc] at hps
              simp at hps
        · intro r' hr'
          obtain ⟨v, hv⟩ := Option.isSome_iff_exists.mp (hmem r' hr')
          rw [dictFind_append_left hv]
          rfl
      · rw [dictFind_append_right hnone, dictFind_cons]
        simp
  obtain ⟨st₁, hrw, ⟨hnd₁, hkeys₁, hgroups₁, hperiods₁, hmem₁⟩, hsome₁⟩ := hens
  obtain ⟨g, hg⟩ := Option.isSome_iff_exists.mp hsome₁
  rw [hrw, hg]
  have hGne : dictFind st₁.1 (canonical_code r).1 ≠ none := by
    rw [hg]
    simp
  have hGkeys : ((dictSet st₁.1 (canonical_code r).1 (updateGroup g r)).map Prod.fst) =
      st₁.1.map Prod.fst := dictSet_keys _ _ _ hGne
  have hPcode : (dictFind st₁.2 (canonical_code r).1).isSome = true := by
    rw [dictFind_isSome_iff_mem_keys, ← hkeys₁, ← dictFind_isSome_iff_mem_keys, hg]
    rfl
  obtain ⟨ps₀, hps₀⟩ := Option.isSome_iff_exists.mp hPcode
  have hPne : dictFind st₁.2 (canonical_code r).1 ≠ none := by
    rw [hps₀]
    simp
  have hps₀mp : ps₀ = memberPeriods rs (canonical_code r).1 := hperiods₁ _ _ hps₀
  have hgetD : (dictFind st₁.2 (canonical_code r).1).getD [] = ps₀ := by
    rw [hps₀]
    rfl
  have hGfind : ∀ c, c ≠ (canonical_code r).1 →
      dictFind (dictSet st₁.1 (canonical_code r).1 (updateGroup g r)) c =
        dictFind st₁.1 c :=
    fun c hc => dictFind_dictSet_ne _ _ _ _ (fun e => hc e.symm)
  refine ⟨by rw [hGkeys]; exact hnd₁, ?_, ?_, ?_, ?_⟩
  · rw [hGkeys, hkeys₁]
    rcases hos : r.onset_start with _ | s <;> rcases hoe : r.onset_end with _ | e <;>
      simp [dictSet_keys _ _ _ hPne]
  · intro c g' hg'
    by_cases hc : c = (canonical_code r).1
    · subst hc
      rw [dictFind_dictSet_self] at hg'
      rw [← Option.some.inj hg']
      exact ⟨(hgroups₁ _ g hg).1, (hgroups₁ _ g hg).2⟩
    · rw [hGfind c hc] at hg'
      exact hgroups₁ c g' hg'
  · intro c ps hps
    rw [memberPeriods_append]
    rcases hos : r.onset_start with _ | s <;> rcases hoe : r.onset_end with _ | e <;>
      rw [hos, hoe] at hps
    · rw [hperiods₁ c ps hps]
      simp [hos, hoe]
    · rw [hperiods₁ c ps hps]
      simp [hos, hoe]
    · rw [hperiods₁ c ps hps]
      simp [hos, hoe]
    · by_cases hc : c = (canonical_code r).1
      · subst hc
        rw [dictFind_dictSet_self] at hps
        rw [← Option.some.inj hps, hgetD, hps₀mp]
        simp [hos, hoe]
      · rw [dictFind_dictSet_ne _ _ _ _ (fun e => hc e.symm)] at hps
        rw [hperiods₁ c ps hps, if_neg (fun e => hc e.symm)]
        simp
  · intro r' hr'
    rcases List.mem_append.mp hr' with hin | hlast
    · by_cases hc : (canonical_code r').1 = (canonical_code r).1
      · rw [hc, dictFind_dictSet_self]
        rfl
      · rw [hGfind _ hc]
        exact hmem₁ r' hin
    · rw [List.mem_singleton.mp hlast, dictFind_dictSet_self]
      rfl

theorem applyOverlapFlag_fst (P : List (String × List (String × String)))
    (kv : String × ConditionGroup) : (applyOverlapFlag P kv).1 = kv.1 := by
  simp only [applyOverlapFlag]
  split <;> rfl

theorem applyOverlapFlag_canonical (P : List (String × List (String × String)))
    (kv : String × ConditionGroup) :
    (applyOverlapFlag P kv).2.canonical_code = kv.2.canonical_code := by
  simp only [applyOverlapFlag]
  split <;> rfl

/-- The grouping fold satisfies its invariant. -/
theorem groupFold_inv (records : List ConditionRecord) :
    GroupInv records (records.foldl groupStep ([], [])) := by
  induction records using List.reverseRecOn with
  | nil =>
    refine ⟨by simp, rfl, ?_, ?_, ?_⟩
    · intro c g hg
      simp [dictFind] at hg
    · intro c ps hps
      simp [dictFind] at hps
    · intro r hr
      simp at hr
  | append_singleton rs r ih =>
    rw [List.foldl_append, List.foldl_cons, List.foldl_nil]
    exact groupStep_inv rs r _ ih

theorem mem_pySortInsert {α : Type} (le : α → α → Bool) (x a : α) (l : List α) :
    a ∈ pySortInsert le x l ↔ a = x ∨ a ∈ l := by
  induction l with
  | nil => simp [pySortInsert]
  | cons y ys ih =>
    by_cases h : le x y = true
    · simp [pySortInsert, h]
    · simp [pySortInsert, h, ih]
      tauto

theorem mem_pySorted {α : Type} (le : α → α → Bool) (l : List α) (a : α) :
    a ∈ pySorted le l ↔ a ∈ l := by
  induction l with
  | nil => simp [pySorted]
  | cons x xs ih => simp [pySorted, mem_pySortInsert, ih]

/-- The adjacent-inversion scan reports exactly a position whose start is
strictly before the preceding end. -/
theorem overlapScan_iff (l : List (String × String)) :
    overlapScan l = true ↔
      ∃ i, ∃ h : i + 1 < l.length,
        pyStrLt (l.get ⟨i + 1, h⟩).1 (l.get ⟨i, Nat.lt_of_succ_lt h⟩).2 = true := by
  induction l with
  | nil =>
    constructor
    · intro h
      simp [overlapScan] at h
    · rintro ⟨i, h, -⟩
      simp at h
  | cons p tail ih =>
    cases tail with
    | nil =>
      constructor
      · intro h
        simp [overlapScan] at h
      · rintro ⟨i, h, -⟩
        simp at h
    | cons q rest =>
      by_cases hlt : pyStrLt q.1 p.2 = true
      · constructor
        · intro _
          exact ⟨0, by simp, hlt⟩
        · intro _
          simp [overlapScan, hlt]
      · have hscan : overlapScan (p :: q :: rest) = overlapScan (q :: rest) := by
          simp [overlapScan, hlt]
        rw [hscan, ih]
        constructor
        · rintro ⟨j, hj, hx⟩
          refine ⟨j + 1, ?_, hx⟩
          simp only [List.length_cons] at hj ⊢
          omega
        · rintro ⟨i, hi, hx⟩
          cases i with
          | zero => exact absurd hx hlt
          | succ j =>
            refine ⟨j, ?_, hx⟩
            simp only [List.length_cons] at hi ⊢
            omega

/-- Characterization of the overlap flag of every produced group: set iff
the group's member records contribute at least two complete onset periods
that the detector flags. -/
theorem group_overlap_flag_char (records : List ConditionRecord) (g : ConditionGroup)
    (hg : g ∈ group_by_canonical_code records) :
    g.has_overlapping_dates = true ↔
      2 ≤ (memberPeriods records g.canonical_code).length ∧
      detect_overlapping_onset_periods (memberPeriods records g.canonical_code) = true := by
  obtain ⟨hnd, hkeys, hgroups, hperiods, hmem⟩ := groupFold_inv records
  simp only [group_by_canonical_code, mem_pySorted, List.map_map,
    List.mem_map] at hg
  obtain ⟨q, hq, hfq⟩ := hg
  simp only [Function.comp_apply] at hfq
  have hfind : dictFind (records.foldl groupStep ([], [])).1 q.1 = some q.2 :=
    dictFind_eq_some_of_mem_nodup hnd hq
  have hcan : q.2.canonical_code = q.1 := (hgroups _ _ hfind).1
  have hov : q.2.has_overlapping_dates = false := (hgroups _ _ hfind).2
  have hPsome : (dictFind (records.foldl groupStep ([], [])).2 q.1).isSome = true := by
    rw [dictFind_isSome_iff_mem_keys, ← hkeys, ← dictFind_isSome_iff_mem_keys, hfind]
    rfl
  obtain ⟨ps, hps⟩ := Option.isSome_iff_exists.mp hPsome
  have hpsm : ps = memberPeriods records q.1 := hperiods _ _ hps
  have hgetD : (dictFind (records.foldl groupStep ([], [])).2 q.1).getD [] = ps := by
    rw [hps]
    rfl
  by_cases hcond : 2 ≤ (memberPeriods records q.1).length ∧
      detect_overlapping_onset_periods (memberPeriods records q.1) = true
  · have hflag : (applyOverlapFlag (records.foldl groupStep ([], [])).2 q) =
        (q.1, { q.2 with has_overlapping_dates := true }) := by
      simp only [applyOverlapFlag]
      rw [hgetD, hpsm, if_pos hcond]
    rw [hflag] at hfq
    rw [← hfq]
    have hcan' : ({ q.2 with has_overlapping_dates := true } :
        ConditionGroup).canonical_code = q.1 := hcan
    show (true = true) ↔ _
    rw [hcan']
    simpa using hcond
  · have hflag : (applyOverlapFlag (records.foldl groupStep ([], [])).2 q) = q := by
      simp only [applyOverlapFlag]
      rw [hgetD, hpsm, if_neg hcond]
    rw [hflag] at hfq
    rw [← hfq, hcan]
    constructor
    · intro h
      rw [hov] at h
      simp at h
    · intro h
      exact absurd h hcond

/-- Every record of the input has a group in the output keyed by its
canonical code. -/
theorem group_exists_for_record (records : List ConditionRecord)
    (r : ConditionRecord) (hr : r ∈ records) :
    ∃ g ∈ group_by_canonical_code records,
      g.canonical_code = (canonical_code r).1 := by
  obtain ⟨hnd, hkeys, hgroups, hperiods, hmem⟩ := groupFold_inv records
  obtain ⟨g₀, hg₀⟩ := Option.isSome_iff_exists.mp (hmem r hr)
  refine ⟨(applyOverlapFlag (records.foldl groupStep ([], [])).2
      ((canonical_code r).1, g₀)).2, ?_, ?_⟩
  · simp only [group_by_canonical_code, mem_pySorted, List.map_map,
      List.mem_map]
    exact ⟨((canonical_code r).1, g₀), mem_of_dictFind_eq_some hg₀, rfl⟩
  · rw [applyOverlapFlag_canonical]
    exact (hgroups _ _ hg₀).1

/-- C4: a group's `has_overlapping_dates` is true iff at least two member
records have complete onset periods and, after the stable sort of those
(start, end) pairs by start, some pair's start is strictly before the
immediately preceding pair's end; groups with fewer than two complete
pairs are never flagged.  Two records coded ICD-10 `J45.909` with onsets
2020-01-01→2020-06-01 and 2020-03-01→2020-09-01 form one group with
encounter count 2 and the flag set. -/
theorem overlap_detection_correct :
    (∀ onset_periods : List (String × String),
      detect_overlapping_onset_periods onset_periods = true ↔
        ∃ i, ∃ h : i + 1 < (pySorted (fun a b => ! pyStrLt b.1 a.1) onset_periods).length,
          pyStrLt ((pySorted (fun a b => ! pyStrLt b.1 a.1) onset_periods).get ⟨i + 1, h⟩).1
            ((pySorted (fun a b => ! pyStrLt b.1 a.1) onset_periods).get
              ⟨i, Nat.lt_of_succ_lt h⟩).2 = true) ∧
    (∀ (records : List ConditionRecord) (g : ConditionGroup),
      g ∈ group_by_canonical_code records →
        (g.has_overlapping_dates = true ↔
          2 ≤ (memberPeriods records g.canonical_code).length ∧
          detect_overlapping_onset_periods
            (memberPeriods records g.canonical_code) = true) ∧
        ((memberPeriods records g.canonical_code).length < 2 →
          g.has_overlapping_dates = false)) ∧
    ((group_by_canonical_code [asthmaRecord1, asthmaRecord2]).map
        (fun g => (g.canonical_code, g.encounter_count, g.has_overlapping_dates)) =
      [("J45.909", 2, true)]) := by
  refine ⟨?_, ?_, by decide⟩
  · intro ps
    exact overlapScan_iff _
  · intro records g hg
    refine ⟨group_overlap_flag_char records g hg, ?_⟩
    intro hlen
    cases hov : g.has_overlapping_dates with
    | false => rfl
    | true =>
      have := ((group_overlap_flag_char records g hg).mp hov).1
      omega

/-- C4 witness: the flag characterization applied to the group produced
from the two overlapping asthma records. -/
theorem overlap_detection_correct_witness :
    ∃ g ∈ group_by_canonical_code [asthmaRecord1, asthmaRecord2],
      (g.has_overlapping_dates = true ↔
        2 ≤ (memberPeriods [asthmaRecord1, asthmaRecord2] g.canonical_code).length ∧
        detect_overlapping_onset_periods
          (memberPeriods [asthmaRecord1, asthmaRecord2] g.canonical_code) = true) := by
  rcases hout : group_by_canonical_code [asthmaRecord1, asthmaRecord2] with _ | ⟨g, rest⟩
  · exact absurd hout (by decide)
  · have hg : g ∈ group_by_canonical_code [asthmaRecord1, asthmaRecord2] := by
      rw [hout]
      exact List.mem_cons_self _ _
    exact ⟨g, List.mem_cons_self _ _,
      (overlap_detection_correct.2.1 [asthmaRecord1, asthmaRecord2] g hg).1⟩

/-- C5: the canonical code is taken from the ICD-10 set when non-empty,
else the SNOMED set, else the ICD-9 set, else it is the lower-cased
display name with the `text` label; every record contributes to a group
keyed by this canonical code, so an IMO-only record groups under its
lower-cased display name. -/
theorem canonical_code_priority (r : ConditionRecord) :
    (r.icd10_codes ≠ [] →
      (canonical_code r).1 ∈ r.icd10_codes ∧ (canonical_code r).2 = "ICD-10") ∧
    (r.icd10_codes = [] → r.snomed_codes ≠ [] →
      (canonical_code r).1 ∈ r.snomed_codes ∧ (canonical_code r).2 = "SNOMED") ∧
    (r.icd10_codes = [] → r.snomed_codes = [] → r.icd9_codes ≠ [] →
      (canonical_code r).1 ∈ r.icd9_codes ∧ (canonical_code r).2 = "ICD-9") ∧
    (r.icd10_codes = [] → r.snomed_codes = [] → r.icd9_codes = [] →
      canonical_code r = (pyLower r.display_name, "text")) ∧
    (∀ records, r ∈ records →
      ∃ g ∈ group_by_canonical_code records,
        g.canonical_code = (canonical_code r).1) ∧
    (imoOnlyRecord.imo_codes ≠ [] ∧ imoOnlyRecord.icd10_codes = [] ∧
      imoOnlyRecord.snomed_codes = [] ∧ imoOnlyRecord.icd9_codes = [] ∧
      canonical_code imoOnlyRecord = (pyLower imoOnlyRecord.display_name, "text") ∧
      (group_by_canonical_code [imoOnlyRecord]).map (fun g => g.canonical_code) =
        ["some condition"]) := by
  refine ⟨?_, ?_, ?_, ?_,
    fun records hr => group_exists_for_record records r hr, by decide⟩
  · intro h
    cases h10 : r.icd10_codes with
    | nil => exact absurd h10 h
    | cons c rest => simp [canonical_code, h10]
  · intro h10 h
    cases hsn : r.snomed_codes with
    | nil => exact absurd hsn h
    | cons c rest => simp [canonical_code, h10, hsn]
  · intro h10 hsn h
    cases h9 : r.icd9_codes with
    | nil => exact absurd h9 h
    | cons c rest => simp [canonical_code, h10, hsn, h9]
  · intro h10 hsn h9
    simp [canonical_code, h10, hsn, h9]

/-- C5 witness: the priority rule applied to `tbCodeRecord` (ICD-10
present) and the grouping-key rule applied to the singleton input
`[imoOnlyRecord]`. -/
theorem canonical_code_priority_witness :
    (tbCodeRecord.icd10_codes ≠ [] ∧
     (canonical_code tbCodeRecord).1 ∈ tbCodeRecord.icd10_codes ∧
     (canonical_code tbCodeRecord).2 = "ICD-10") ∧
    (imoOnlyRecord ∈ [imoOnlyRecord] ∧
     ∃ g ∈ group_by_canonical_code [imoOnlyRecord],
       g.canonical_code = (canonical_code imoOnlyRecord).1) := by
  have h1 := (canonical_code_priority tbCodeRecord).1 (by decide)
  have h2 := (canonical_code_priority imoOnlyRecord).2.2.2.2.1 [imoOnlyRecord]
    (List.mem_singleton.mpr rfl)
  exact ⟨⟨by decide, h1.1, h1.2⟩, List.mem_singleton.mpr rfl, h2⟩

end FhirConditions
